import Mathlib

/-!
Verification development for the budget-aware hierarchical chunk-merge
content synthesis engine of `app/agents/writer.py` (WriterAgent), with
configuration defaults from `app/config.py`.

The Python code is shallowly embedded: dynamic JSON-like Python values
become the inductive `JValue`; Python dicts become ordered association
lists; the external LLM collaborator becomes an oracle parameter
`llm : String → String → Except Unit String` (prompt, system prompt ↦
reply or failure); configuration globals become explicit parameters whose
repository defaults are recorded as constants.  Token counting models the
documented fallback path of `_estimate_tokens` (the optional `tiktoken`
backend is an external collaborator that the spec says may be absent).
-/

namespace Writer

set_option maxRecDepth 1000000

/-! ## Python string primitives (ASCII fragment)

Python `str.strip`, `str.splitlines`, `str.split`, `str.lower`,
`str.startswith`, `str.find`/`rfind` restricted to the ASCII whitespace
and line-break sets (the repository only feeds ASCII prompt scaffolding
through these helpers; `ensure_ascii=True` keeps serialized payloads
ASCII as well). -/

/-- ASCII whitespace recognised by Python `str.strip()`. -/
def is_py_space (c : Char) : Bool :=
  c = ' ' || c = '\t' || c = '\n' || c = '\r' || c = '\x0b' || c = '\x0c'

/-- Characters treated as line boundaries by Python `str.splitlines()`
(ASCII fragment: LF, CR, VT, FF; CRLF is a single boundary). -/
def is_py_linebreak (c : Char) : Bool :=
  c = '\n' || c = '\r' || c = '\x0b' || c = '\x0c'

/-- Remove leading characters satisfying `p` (Python `lstrip`). -/
def strip_left (p : Char → Bool) (l : List Char) : List Char :=
  l.dropWhile p

/-- Remove trailing characters satisfying `p` (Python `rstrip`). -/
def strip_right (p : Char → Bool) (l : List Char) : List Char :=
  (l.reverse.dropWhile p).reverse

/-- Remove leading and trailing characters satisfying `p`. -/
def strip_both (p : Char → Bool) (l : List Char) : List Char :=
  strip_right p (strip_left p l)

/-- Python `str.strip()` (ASCII whitespace). -/
def py_strip (s : String) : String :=
  ⟨strip_both is_py_space s.data⟩

/-- Python `str.rstrip()` (ASCII whitespace). -/
def py_rstrip (s : String) : String :=
  ⟨strip_right is_py_space s.data⟩

/-- Python `str.strip(chars)` for an explicit character set. -/
def py_strip_chars (cs : List Char) (s : String) : String :=
  ⟨strip_both (fun c => cs.contains c) s.data⟩

/-- ASCII lower-casing, as used on the code-fence `json` marker. -/
def py_lower (s : String) : String :=
  ⟨s.data.map (fun c => if 'A' ≤ c && c ≤ 'Z' then Char.ofNat (c.toNat + 32) else c)⟩

/-- Does `l` begin with the pattern `pat`?  (Python `str.startswith`.) -/
def leads_with (pat l : List Char) : Bool :=
  match pat, l with
  | p :: ps, c :: cs => p = c && leads_with ps cs
  | [], _ => true
  | _ :: _, [] => false

/-- Python `str.startswith(pat)`. -/
def py_startswith (s pat : String) : Bool :=
  leads_with pat.data s.data

/-- Index of the first occurrence of substring `pat` in `l`, if any
(Python `str.find` for a non-empty pattern). -/
def find_sub (pat : List Char) : List Char → Option Nat
  | [] => if pat = [] then some 0 else none
  | c :: cs =>
    if leads_with pat (c :: cs) then some 0
    else (find_sub pat cs).map (· + 1)

/-- Python `sub in s` substring containment. -/
def py_contains (s sub : String) : Bool :=
  (find_sub sub.data s.data).isSome

/-- Python `s.split(sep)[0]`: the text before the first occurrence of
`sep`, or all of `s` when `sep` does not occur. -/
def py_split_head (s sep : String) : String :=
  match find_sub sep.data s.data with
  | some i => ⟨s.data.take i⟩
  | none => s

/-- Index of the first occurrence of character `c` (Python `str.find`). -/
def find_char (c : Char) : List Char → Option Nat
  | [] => none
  | d :: ds => if d = c then some 0 else (find_char c ds).map (· + 1)

/-- Index of the last occurrence of character `c` (Python `str.rfind`). -/
def rfind_char (c : Char) (l : List Char) : Option Nat :=
  (find_char c l.reverse).map (fun i => l.length - 1 - i)

/-- Split at Python line boundaries (ASCII fragment), keeping a final
possibly-empty segment; CRLF counts as one boundary. -/
def splitlines_raw : List Char → List (List Char)
  | [] => [[]]
  | c :: rest =>
    if is_py_linebreak c then
      if c = '\r' then
        match rest with
        | '\n' :: rest2 => [] :: splitlines_raw rest2
        | other => [] :: splitlines_raw other
      else [] :: splitlines_raw rest
    else
      match splitlines_raw rest with
      | [] => [[c]]
      | line :: more => (c :: line) :: more

/-- Python `str.splitlines()`: the empty string yields `[]`, and a
trailing line boundary does not produce a trailing empty line. -/
def py_splitlines (s : String) : List String :=
  match s.data with
  | [] => []
  | l =>
    let ls := splitlines_raw l
    let ls := if ls.getLast? = some [] then ls.dropLast else ls
    ls.map (fun cs => (⟨cs⟩ : String))

/-- Python `a or b` on strings: `a` when non-empty, else `b`. -/
def py_or (a b : String) : String :=
  if a = "" then b else a

/-! ## JSON-like Python values

The dynamic values the writer traverses (parsed request JSON and parsed
LLM replies): `None`, booleans, numbers (kept as their numeral lexeme;
the repository's claims never depend on float arithmetic), strings,
lists, and insertion-ordered dicts. -/

inductive JValue where
  | jnull
  | jbool (b : Bool)
  | jnum (lexeme : String)
  | jstr (s : String)
  | jarr (items : List JValue)
  | jobj (fields : List (String × JValue))

/-- A section payload / chunk: a Python dict, insertion ordered. -/
abbrev Payload := List (String × JValue)

/-- Keys of a dict in insertion order. -/
def payload_keys (p : Payload) : List String :=
  p.map Prod.fst

/-- Python `key in dict`. -/
def payload_has_key (p : Payload) (k : String) : Bool :=
  p.any (fun kv => kv.1 = k)

/-- Python `dict.get(key)`: first (unique) binding of `k`. -/
def payload_get (p : Payload) (k : String) : Option JValue :=
  (p.find? (fun kv => kv.1 = k)).map Prod.snd

/-- Python dict insertion: replace in place if the key exists, else
append (used when the JSON parser builds objects). -/
def payload_insert (p : Payload) (k : String) (v : JValue) : Payload :=
  if payload_has_key p k then
    p.map (fun kv => if kv.1 = k then (k, v) else kv)
  else p ++ [(k, v)]

/-! ## `json.dumps(..., ensure_ascii=True)`

The exact serializer the writer renders payloads with, in both the
`indent=2` form (prompt content) and the compact default form (leaf
truncation).  Escaping follows CPython `py_encode_basestring_ascii`:
printable ASCII except `"` and `\` is literal, short escapes for the
usual control characters, `\uXXXX` (lowercase hex, surrogate pairs
beyond the BMP) for everything else. -/

/-- Lowercase hex digit. -/
def hex_digit (n : Nat) : Char :=
  Char.ofNat (if n < 10 then 48 + n else 87 + n)

/-- Four-digit lowercase hex. -/
def hex4 (n : Nat) : List Char :=
  [hex_digit (n / 4096 % 16), hex_digit (n / 256 % 16),
   hex_digit (n / 16 % 16), hex_digit (n % 16)]

/-- Escape one character as CPython's ASCII JSON encoder does. -/
def escape_json_char (c : Char) : List Char :=
  if c = '"' then ['\\', '"']
  else if c = '\\' then ['\\', '\\']
  else if c = '\n' then ['\\', 'n']
  else if c = '\r' then ['\\', 'r']
  else if c = '\t' then ['\\', 't']
  else if c = '\x08' then ['\\', 'b']
  else if c = '\x0c' then ['\\', 'f']
  else if 0x20 ≤ c.toNat && c.toNat ≤ 0x7e then [c]
  else if c.toNat < 0x10000 then '\\' :: 'u' :: hex4 c.toNat
  else
    let v := c.toNat - 0x10000
    ('\\' :: 'u' :: hex4 (0xd800 + v / 0x400)) ++
      ('\\' :: 'u' :: hex4 (0xdc00 + v % 0x400))

/-- Serialize a Python string as a JSON string literal. -/
def dumps_str (s : String) : String :=
  ⟨'"' :: s.data.flatMap escape_json_char ++ ['"']⟩

/-- `indent * " "` padding for `json.dumps(indent=2)`. -/
def json_pad (lvl : Nat) : String :=
  ⟨List.replicate (2 * lvl) ' '⟩

mutual

/-- `json.dumps(v, indent=2, ensure_ascii=True)` at nesting level `lvl`. -/
def dumps_value (lvl : Nat) : JValue → String
  | .jnull => "null"
  | .jbool b => if b then "true" else "false"
  | .jnum s => s
  | .jstr s => dumps_str s
  | .jarr [] => "[]"
  | .jarr (v :: vs) =>
    "[\n" ++ dumps_items (lvl + 1) (v :: vs) ++ "\n" ++ json_pad lvl ++ "]"
  | .jobj [] => "\x7b\x7d"
  | .jobj (f :: fs) =>
    "\x7b\n" ++ dumps_fields (lvl + 1) (f :: fs) ++ "\n" ++ json_pad lvl ++ "\x7d"

/-- Comma-and-newline separated array items, each indented. -/
def dumps_items (lvl : Nat) : List JValue → String
  | [] => ""
  | [v] => json_pad lvl ++ dumps_value lvl v
  | v :: w :: ws => json_pad lvl ++ dumps_value lvl v ++ ",\n" ++ dumps_items lvl (w :: ws)

/-- Comma-and-newline separated object entries, each indented. -/
def dumps_fields (lvl : Nat) : List (String × JValue) → String
  | [] => ""
  | [f] => json_pad lvl ++ dumps_str f.1 ++ ": " ++ dumps_value lvl f.2
  | f :: g :: gs =>
    json_pad lvl ++ dumps_str f.1 ++ ": " ++ dumps_value lvl f.2 ++ ",\n" ++
      dumps_fields lvl (g :: gs)

end

mutual

/-- Compact `json.dumps(v, ensure_ascii=True)` (default separators). -/
def dumps_compact : JValue → String
  | .jnull => "null"
  | .jbool b => if b then "true" else "false"
  | .jnum s => s
  | .jstr s => dumps_str s
  | .jarr [] => "[]"
  | .jarr (v :: vs) => "[" ++ dumps_compact_items (v :: vs) ++ "]"
  | .jobj [] => "\x7b\x7d"
  | .jobj (f :: fs) => "\x7b" ++ dumps_compact_fields (f :: fs) ++ "\x7d"

/-- Compact array items, `", "` separated. -/
def dumps_compact_items : List JValue → String
  | [] => ""
  | [v] => dumps_compact v
  | v :: w :: ws => dumps_compact v ++ ", " ++ dumps_compact_items (w :: ws)

/-- Compact object entries, `", "` and `": "` separated. -/
def dumps_compact_fields : List (String × JValue) → String
  | [] => ""
  | [f] => dumps_str f.1 ++ ": " ++ dumps_compact f.2
  | f :: g :: gs =>
    dumps_str f.1 ++ ": " ++ dumps_compact f.2 ++ ", " ++ dumps_compact_fields (g :: gs)

end

/-- `json.dumps(payload, indent=2, ensure_ascii=True)` of a top-level dict. -/
def dumps_payload (p : Payload) : String :=
  dumps_value 0 (.jobj p)

/-- `json.dumps(values, indent=2, ensure_ascii=True)` of a top-level list
(used for digest batches). -/
def dumps_jlist (vs : List JValue) : String :=
  dumps_value 0 (.jarr vs)

/-! ## Configuration defaults (`app/config.py`)

All are externally supplied constants (environment overridable); the
engine's functions take them as parameters and these are the repository
defaults. -/

def LLM_INPUT_TOKEN_BUDGET : ℕ := 120000
def LLM_CHUNK_TOKEN_BUDGET : ℕ := 20000
def LLM_MERGE_TOKEN_BUDGET : ℕ := 8000
def LLM_DIGEST_TOKEN_BUDGET : ℕ := 8000
def LLM_MAX_CHUNK_CALLS : ℕ := 40
def LLM_MAX_FIELD_CHARS : ℕ := 8000
def LLM_TOKEN_ESTIMATE_CHARS_PER_TOKEN : ℚ := 4
def LLM_STRUCTURED_MAX_TOKENS : ℕ := 1500
def LLM_STRUCTURED_MAX_TOKENS_DETAIL : ℕ := 2200

/-! ## Size Estimator (`_estimate_tokens`, `_estimate_prompt_tokens`)

`_estimate_tokens` first tries the optional `tiktoken` backend; on any
failure (the backend is an optional external collaborator) it falls back
to `int(len(text) / max(chars_per_token, 1.0)) + 1`, and returns `0` for
empty text.  We embed the fallback path.  `int(·)` on a non-negative
float is the floor; with `c = max(cpt, 1)` written as `num/den` in lowest
terms, `⌊len / c⌋ = (len * den) / num` in integer division, which is the
executable form used here (`estimate_tokens_floor` below proves it equal
to the floor formula).  Total by construction: the embedded function
never raises. -/

def estimate_tokens (cpt : ℚ) (text : String) : ℕ :=
  if text = "" then 0
  else
    let c : ℚ := if cpt ≤ 1 then 1 else cpt
    (((text.length : ℤ) * (c.den : ℤ)) / c.num).toNat + 1

/-- `_estimate_prompt_tokens`: prompt plus system prompt. -/
def estimate_prompt_tokens (cpt : ℚ) (prompt system_prompt : String) : ℕ :=
  estimate_tokens cpt prompt + estimate_tokens cpt system_prompt

/-! ## Prompt templates (`_structured_system_prompt`, `_response_spec`,
`_structured_prompt`, `_merge_prompt`, `_digest_prompt`) -/

def structured_system_prompt : String :=
  "You are a professional technical writer. Respond only with valid JSON."

/-- The response-size spec: paragraph/bullet/finding count ranges and the
max output tokens (`_response_spec`, with `app/config.py` defaults). -/
structure ResponseSpec where
  paragraphs : String
  bullets : String
  findings : String
  max_tokens : ℕ

def response_spec (detailed : Bool) : ResponseSpec :=
  if detailed then
    ⟨"4-6", "7-12", "4-7", LLM_STRUCTURED_MAX_TOKENS_DETAIL⟩
  else
    ⟨"2-3", "3-7", "2-5", LLM_STRUCTURED_MAX_TOKENS⟩

/-- `_structured_prompt`: the analytics template or the generic template,
with the response-size spec values interpolated. -/
def structured_prompt (section_name content_str section_type : String)
    (spec : ResponseSpec) : String :=
  if section_type = "analytics" then
    "Create narrative content for a report section based on the data below.\nReturn ONLY valid JSON with these keys:\n- description: " ++
      spec.paragraphs ++
      " paragraphs in plain text (no markdown)\n- bullets: array of " ++
      spec.bullets ++
      " concise bullet points (strings, no bullet symbols)\n- findings: array of " ++
      spec.findings ++
      " key findings or risks (strings)\n- summary: single sentence\n\nSection Name: " ++
      section_name ++ "\nData:\n" ++ content_str ++
      "\n\nGuidelines:\n- Explain trends, outliers, and notable values\n- Use precise numbers where helpful\n- Do not echo raw JSON paths\n- Keep language professional and clear"
  else
    "Create narrative content for a report section based on the content below.\nReturn ONLY valid JSON with these keys:\n- description: " ++
      spec.paragraphs ++
      " paragraphs in plain text (no markdown)\n- bullets: array of " ++
      spec.bullets ++
      " concise bullet points (strings, no bullet symbols)\n- findings: array of " ++
      spec.findings ++
      " key findings or implications (strings)\n- summary: single sentence\n\nSection Name: " ++
      section_name ++ "\nContent:\n" ++ content_str ++
      "\n\nGuidelines:\n- Explain the meaning of the data in business language\n- Highlight key entities, items, or risks\n- Avoid listing every field; focus on what matters\n- Do not echo raw JSON paths"

/-- `_merge_prompt`: combine chunk summaries (always base response spec).
Digests are dicts; the prompt embeds `json.dumps(digests, indent=2)`. -/
def merge_prompt (section_name _section_type : String)
    (digests : List Payload) : String :=
  let base := response_spec false
  "Combine the following chunk summaries into a single cohesive section.\nReturn ONLY valid JSON with these keys:\n- description: " ++
    base.paragraphs ++
    " paragraphs in plain text (no markdown)\n- bullets: array of " ++
    base.bullets ++
    " concise bullet points (strings, no bullet symbols)\n- findings: array of " ++
    base.findings ++
    " key findings or risks (strings)\n- summary: single sentence\n\nSection Name: " ++
    section_name ++ "\nChunk Summaries:\n" ++ dumps_jlist (digests.map .jobj) ++
    "\n\nGuidelines:\n- De-duplicate overlapping points\n- Keep language professional and clear\n- Do not invent data beyond the provided summaries"

/-- `_digest_prompt`: narrate chunk digests (given response spec). -/
def digest_prompt (section_name _section_type : String)
    (digests : List Payload) (spec : ResponseSpec) : String :=
  "Create narrative content for a report section based on the chunk digests below.\nReturn ONLY valid JSON with these keys:\n- description: " ++
    spec.paragraphs ++
    " paragraphs in plain text (no markdown)\n- bullets: array of " ++
    spec.bullets ++
    " concise bullet points (strings, no bullet symbols)\n- findings: array of " ++
    spec.findings ++
    " key findings or risks (strings)\n- summary: single sentence\n\nSection Name: " ++
    section_name ++ "\nChunk Digests:\n" ++ dumps_jlist (digests.map .jobj) ++
    "\n\nGuidelines:\n- Use the digest counts and samples to describe the data\n- Highlight patterns or notable values where possible\n- Do not invent data beyond the provided digests"

/-! ## Fit Checker (`_fits_budget`)

Renders the structured prompt for the payload — always with the base
(`detailed=False`) response spec — and compares the estimate with the
budget. -/

def fits_budget (sn st : String) (content : Payload) (budget : ℕ) (cpt : ℚ) : Bool :=
  estimate_prompt_tokens cpt
      (structured_prompt sn (dumps_payload content) st (response_spec false))
      structured_system_prompt
    ≤ budget

/-! ## Recursive Splitter (`_truncate_text`, `_split_text`,
`_split_list_item`, `_expand_item`, `_chunk_mapping_payloads`) and
Packer (`_shrink_*_to_fit`, `_shrink_payload_to_fit`, `_pack_payloads`) -/

/-- `_truncate_text`: truncate to `max_chars` with an explicit marker. -/
def truncate_text (text : String) (max_chars : ℕ) : String :=
  if text = "" || text.length ≤ max_chars then text
  else py_rstrip ⟨text.data.take max_chars⟩ ++ "... [truncated]"

/-- Fixed-size windows of `_split_text`'s while loop; `fuel` bounds the
iteration count (the source loop advances by `max_chars ≥ 1` per step, so
`l.length` steps always suffice; `max_chars = 0` would not terminate in
the source and is outside the configuration range). -/
def split_text_go (max_chars : ℕ) : ℕ → List Char → List String
  | 0, _ => []
  | _, [] => []
  | fuel + 1, l => (⟨l.take max_chars⟩ : String) :: split_text_go max_chars fuel (l.drop max_chars)

/-- `_split_text`: empty text yields `[""]`. -/
def split_text (text : String) (max_chars : ℕ) : List String :=
  if text = "" then [""]
  else split_text_go max_chars text.data.length text.data

/-- The accumulation loop of `_split_list_item`: grow `cur` while the
candidate fragment fits; on overflow flush and either restart from the
item, window it (strings), or truncate it (other irreducible items). -/
def split_list_go (sn st k : String) (B : ℕ) (cpt : ℚ) (mfc : ℕ)
    (cur : List JValue) : List JValue → List Payload
  | [] => if cur.isEmpty then [] else [[(k, .jarr cur)]]
  | item :: rest =>
    let cand := cur ++ [item]
    if fits_budget sn st [(k, .jarr cand)] B cpt then
      split_list_go sn st k B cpt mfc cand rest
    else
      (if cur.isEmpty then [] else [[(k, .jarr cur)]]) ++
        (if fits_budget sn st [(k, .jarr [item])] B cpt then
          split_list_go sn st k B cpt mfc [item] rest
        else
          (match item with
            | .jstr s => (split_text s mfc).map (fun seg => [(k, .jarr [.jstr seg])])
            | other => [[(k, .jarr [.jstr (truncate_text (dumps_compact other) mfc)])]]) ++
            split_list_go sn st k B cpt mfc [] rest)

/-- `_split_list_item`; `chunks or [{key: []}]` at the end. -/
def split_list_item (sn st k : String) (value : List JValue)
    (B : ℕ) (cpt : ℚ) (mfc : ℕ) : List Payload :=
  match split_list_go sn st k B cpt mfc [] value with
  | [] => [[(k, .jarr [])]]
  | chunks => chunks

/-- The halving loop of `_shrink_list_to_fit` / `_shrink_dict_to_fit`:
try the prefix of length `e`, halving `e` until it fits or `e ≤ 1`.
`fuel` bounds iterations (`e` strictly halves, so the initial `e`
suffices). -/
def shrink_prefix_go ( fits_prefix : ℕ → Bool) : ℕ → ℕ → Option ℕ
  | 0, _ => none
  | _ + 1, e =>
    if e ≤ 1 then none
    else if fits_prefix e then some e
    else shrink_prefix_go fits_prefix (e / 2) (max 1 (e / 2))

/-- `_shrink_list_to_fit`. -/
def shrink_list_to_fit (sn st k : String) (value : List JValue)
    (B : ℕ) (cpt : ℚ) (mfc : ℕ) : List JValue :=
  if value.isEmpty then []
  else if fits_budget sn st [(k, .jarr value)] B cpt then value
  else
    match shrink_prefix_go
        (fun e => fits_budget sn st [(k, .jarr (value.take e))] B cpt)
        value.length value.length with
    | some e => value.take e
    | none => [.jstr (truncate_text (dumps_compact (value.headD .jnull)) mfc)]

/-- `_shrink_dict_to_fit`. -/
def shrink_dict_to_fit (sn st k : String) (value : Payload)
    (B : ℕ) (cpt : ℚ) (mfc : ℕ) : Payload :=
  if value.isEmpty then []
  else if fits_budget sn st [(k, .jobj value)] B cpt then value
  else
    match shrink_prefix_go
        (fun e => fits_budget sn st [(k, .jobj (value.take e))] B cpt)
        value.length value.length with
    | some e => value.take e
    | none =>
      match value with
      | [] => []
      | (k0, v0) :: _ => [(k0, .jstr (truncate_text (dumps_compact v0) mfc))]

/-- `_shrink_payload_to_fit`: the documented irreducible-oversize
fallback.  Multi-key payloads collapse to a `"_truncated"` stand-in;
single-key payloads shrink by value kind; bare scalars are returned
unchanged. -/
def shrink_payload_to_fit (sn st : String) (payload : Payload)
    (B : ℕ) (cpt : ℚ) (mfc : ℕ) : Payload :=
  match payload with
  | [(k, .jstr s)] => [(k, .jstr (truncate_text s mfc))]
  | [(k, .jarr l)] => [(k, .jarr (shrink_list_to_fit sn st k l B cpt mfc))]
  | [(k, .jobj f)] => [(k, .jobj (shrink_dict_to_fit sn st k f B cpt mfc))]
  | [kv] => [kv]
  | other => [("_truncated", .jstr (truncate_text (dumps_compact (.jobj other)) mfc))]

/-- Python `any(key in current for key in payload)`. -/
def payload_conflict (payload current : Payload) : Bool :=
  payload.any (fun kv => payload_has_key current kv.1)

/-- The greedy first-fit loop of `_pack_payloads`: key conflict flushes
the open batch; a fitting merge extends it; otherwise the open batch is
flushed and the fragment (shrunk when it does not fit alone) becomes its
own batch. -/
def pack_go (sn st : String) (B : ℕ) (cpt : ℚ) (mfc : ℕ)
    (current : Payload) : List Payload → List Payload
  | [] => if current.isEmpty then [] else [current]
  | p :: rest =>
    let pre : List Payload :=
      if payload_conflict p current && !current.isEmpty then [current] else []
    let cur0 : Payload := if payload_conflict p current then [] else current
    let cand := cur0 ++ p
    if fits_budget sn st cand B cpt then pre ++ pack_go sn st B cpt mfc cand rest
    else
      pre ++ (if cur0.isEmpty then [] else [cur0]) ++
        [(if fits_budget sn st p B cpt then p
          else shrink_payload_to_fit sn st p B cpt mfc)] ++
        pack_go sn st B cpt mfc [] rest

/-- `_pack_payloads`. -/
def pack_payloads (sn st : String) (payloads : List Payload)
    (B : ℕ) (cpt : ℚ) (mfc : ℕ) : List Payload :=
  pack_go sn st B cpt mfc [] payloads

mutual

/-- `_expand_item`: one key/value pair into fitting single-key fragments
(or the documented irreducible fallbacks). -/
def expand_item (sn st : String) (B : ℕ) (cpt : ℚ) (mfc : ℕ)
    (k : String) (v : JValue) : List Payload :=
  if fits_budget sn st [(k, v)] B cpt then [[(k, v)]]
  else
    match v with
    | .jarr items => split_list_item sn st k items B cpt mfc
    | .jobj fields =>
      match pack_payloads sn st (chunk_collect sn st B cpt mfc fields) B cpt mfc with
      | [] => [[(k, .jobj [])]]
      | sub :: subs => (sub :: subs).map (fun subchunk => [(k, .jobj subchunk)])
    | .jstr s => (split_text s mfc).map (fun seg => [(k, .jstr seg)])
    | other => [[(k, other)]]

/-- The per-key expansion loop of `_chunk_mapping_payloads`. -/
def chunk_collect (sn st : String) (B : ℕ) (cpt : ℚ) (mfc : ℕ) :
    List (String × JValue) → List Payload
  | [] => []
  | (k, v) :: rest =>
    expand_item sn st B cpt mfc k v ++ chunk_collect sn st B cpt mfc rest

end

/-- `_chunk_mapping_payloads`: expand every key, then bin-pack. -/
def chunk_mapping_payloads (sn st : String) (mapping : Payload)
    (B : ℕ) (cpt : ℚ) (mfc : ℕ) : List Payload :=
  pack_payloads sn st (chunk_collect sn st B cpt mfc mapping) B cpt mfc

/-- `_chunk_content` (the non-dict wrapping branch is vacuous here since
payloads are dicts by type). -/
def chunk_content (sn st : String) (content : Payload)
    (B : ℕ) (cpt : ℚ) (mfc : ℕ) : List Payload :=
  chunk_mapping_payloads sn st content B cpt mfc

/-! ## JSON repair (`_repair_json_string`)

Character scan tracking whether the cursor is inside a quoted string and
whether the previous character was an escape; inside a string, raw LF
becomes `\n`, raw CR is dropped, raw TAB becomes `\t`. -/

/-- The scan loop of `_repair_json_string`. -/
def repair_go : Bool → Bool → List Char → List Char
  | _, _, [] => []
  | in_string, escape, c :: rest =>
    if in_string then
      if escape then c :: repair_go true false rest
      else if c = '\\' then c :: repair_go true true rest
      else if c = '"' then c :: repair_go false escape rest
      else if c = '\n' then '\\' :: 'n' :: repair_go true escape rest
      else if c = '\r' then repair_go true escape rest
      else if c = '\t' then '\\' :: 't' :: repair_go true escape rest
      else c :: repair_go true escape rest
    else if c = '"' then c :: repair_go true escape rest
    else c :: repair_go false escape rest

/-- `_repair_json_string`. -/
def repair_json_string (text : String) : String :=
  ⟨repair_go false false text.data⟩

/-! ## Strict JSON parser (`json.loads`)

The standard-library parser the writer calls, embedded for the subset the
claims exercise: strict mode (raw control characters below `0x20` inside
string literals are rejected — this is what makes the repair pass
necessary), the full escape set, objects with later-duplicate-key wins,
arrays, `true`/`false`/`null`, and the strict number grammar (numbers are
kept as lexemes).  One deliberate deviation: CPython tolerates lone
UTF-16 surrogates in `\uXXXX` escapes, which Lean's `Char` cannot
represent, so lone surrogates are treated as a parse failure here; no
claim exercises them (likewise the non-standard `NaN`/`Infinity`
constants CPython accepts are not modelled). -/

/-- JSON whitespace (`json.decoder.WHITESPACE`). -/
def is_json_ws (c : Char) : Bool :=
  c = ' ' || c = '\t' || c = '\n' || c = '\r'

def skip_ws (l : List Char) : List Char :=
  l.dropWhile is_json_ws

/-- Hex digit value. -/
def hex_val (c : Char) : Option ℕ :=
  let n := c.toNat
  if 48 ≤ n && n ≤ 57 then some (n - 48)
  else if 97 ≤ n && n ≤ 102 then some (n - 87)
  else if 65 ≤ n && n ≤ 70 then some (n - 55)
  else none

/-- Value of a `\uXXXX` escape. -/
def hex4_val (h1 h2 h3 h4 : Char) : Option ℕ :=
  match hex_val h1, hex_val h2, hex_val h3, hex_val h4 with
  | some a, some b, some c, some d => some (((a * 16 + b) * 16 + c) * 16 + d)
  | _, _, _, _ => none

mutual

/-- Scan a string literal body after the opening quote (`py_scanstring`,
strict mode): raw controls < `0x20` are errors; escapes are decoded by
`parse_escape`. -/
def parse_string_body : List Char → Option (List Char × List Char)
  | [] => none
  | c :: rest =>
    if c = '"' then some ([], rest)
    else if c = '\\' then parse_escape rest
    else if c.toNat < 0x20 then none
    else (parse_string_body rest).map (fun p => (c :: p.1, p.2))

/-- Decode one escape sequence after a backslash (the `BACKSLASH` table
plus `\uXXXX`, with surrogate pairs combined). -/
def parse_escape : List Char → Option (List Char × List Char)
  | [] => none
  | e :: r =>
    if e = '"' then (parse_string_body r).map (fun p => ('"' :: p.1, p.2))
    else if e = '\\' then (parse_string_body r).map (fun p => ('\\' :: p.1, p.2))
    else if e = '/' then (parse_string_body r).map (fun p => ('/' :: p.1, p.2))
    else if e = 'b' then (parse_string_body r).map (fun p => ('\x08' :: p.1, p.2))
    else if e = 'f' then (parse_string_body r).map (fun p => ('\x0c' :: p.1, p.2))
    else if e = 'n' then (parse_string_body r).map (fun p => ('\n' :: p.1, p.2))
    else if e = 'r' then (parse_string_body r).map (fun p => ('\r' :: p.1, p.2))
    else if e = 't' then (parse_string_body r).map (fun p => ('\t' :: p.1, p.2))
    else if e = 'u' then
      match r with
      | h1 :: h2 :: h3 :: h4 :: r2 =>
        (match hex4_val h1 h2 h3 h4 with
         | none => none
         | some n =>
           if n < 0xd800 || 0xe000 ≤ n then
             (parse_string_body r2).map (fun p => (Char.ofNat n :: p.1, p.2))
           else if n < 0xdc00 then
             match r2 with
             | b1 :: u1 :: g1 :: g2 :: g3 :: g4 :: r3 =>
               if b1 = '\\' && u1 = 'u' then
                 match hex4_val g1 g2 g3 g4 with
                 | some m =>
                   if 0xdc00 ≤ m && m < 0xe000 then
                     (parse_string_body r3).map (fun p =>
                       (Char.ofNat (0x10000 + (n - 0xd800) * 0x400 + (m - 0xdc00)) :: p.1,
                         p.2))
                   else none
                 | none => none
               else none
             | _ => none
           else none)
      | _ => none
    else none

end

/-- Strict JSON number lexeme (`json.decoder.NUMBER_RE`):
`-?(0|[1-9][0-9]*)(\.[0-9]+)?([eE][-+]?[0-9]+)?`. -/
def lex_number (l : List Char) : Option (List Char × List Char) :=
  let (neg, l1) : List Char × List Char :=
    match l with
    | '-' :: r => (['-'], r)
    | _ => ([], l)
  match l1 with
  | c :: r =>
    if !c.isDigit then none
    else
      let (ipart, l2) : List Char × List Char :=
        if c = '0' then ([c], r)
        else ([c] ++ r.takeWhile Char.isDigit, r.dropWhile Char.isDigit)
      let (fpart, l3) : List Char × List Char :=
        match l2 with
        | '.' :: f :: fr =>
          if f.isDigit then
            ('.' :: f :: fr.takeWhile Char.isDigit, fr.dropWhile Char.isDigit)
          else ([], l2)
        | _ => ([], l2)
      let (epart, l4) : List Char × List Char :=
        match l3 with
        | e :: er =>
          if e = 'e' || e = 'E' then
            let (sgn, er2) : List Char × List Char :=
              match er with
              | '+' :: r => (['+'], r)
              | '-' :: r => (['-'], r)
              | _ => ([], er)
            match er2 with
            | d :: _ =>
              if d.isDigit then
                ([e] ++ sgn ++ er2.takeWhile Char.isDigit, er2.dropWhile Char.isDigit)
              else ([], l3)
            | [] => ([], l3)
          else ([], l3)
        | [] => ([], l3)
      some (neg ++ ipart ++ fpart ++ epart, l4)
  | [] => none

mutual

/-- One JSON value (fuel-bounded recursion; every recursive call passes
`fuel`, and callers supply fuel larger than the input length). -/
def parse_value : ℕ → List Char → Option (JValue × List Char)
  | 0, _ => none
  | fuel + 1, l =>
    match l with
    | [] => none
    | c :: rest =>
      if c = '{' then
        (match skip_ws rest with
         | '}' :: r => some (.jobj [], r)
         | l' => parse_members fuel l' [])
      else if c = '[' then
        (match skip_ws rest with
         | ']' :: r => some (.jarr [], r)
         | l' => parse_elements fuel l' [])
      else if c = '"' then (parse_string_body rest).map (fun p => (.jstr ⟨p.1⟩, p.2))
      else if c = 't' then
        (match rest with
         | 'r' :: 'u' :: 'e' :: r => some (.jbool true, r)
         | _ => none)
      else if c = 'f' then
        (match rest with
         | 'a' :: 'l' :: 's' :: 'e' :: r => some (.jbool false, r)
         | _ => none)
      else if c = 'n' then
        (match rest with
         | 'u' :: 'l' :: 'l' :: r => some (.jnull, r)
         | _ => none)
      else if c = '-' || c.isDigit then
        (lex_number (c :: rest)).map (fun p => (.jnum ⟨p.1⟩, p.2))
      else none

/-- Object members after the opening brace (and after any comma). -/
def parse_members : ℕ → List Char → Payload → Option (JValue × List Char)
  | 0, _, _ => none
  | fuel + 1, l, acc =>
    match l with
    | [] => none
    | c :: rest =>
      if c = '"' then
        match parse_string_body rest with
        | none => none
        | some (key, r1) =>
          match skip_ws r1 with
          | ':' :: r2 =>
            match parse_value fuel (skip_ws r2) with
            | none => none
            | some (v, r3) =>
              let acc := payload_insert acc ⟨key⟩ v
              match skip_ws r3 with
              | ',' :: r4 => parse_members fuel (skip_ws r4) acc
              | '}' :: r4 => some (.jobj acc, r4)
              | _ => none
          | _ => none
      else none

/-- Array elements after the opening bracket (and after any comma). -/
def parse_elements : ℕ → List Char → List JValue → Option (JValue × List Char)
  | 0, _, _ => none
  | fuel + 1, l, acc =>
    match parse_value fuel l with
    | none => none
    | some (v, r1) =>
      match skip_ws r1 with
      | ',' :: r2 => parse_elements fuel (skip_ws r2) (acc ++ [v])
      | ']' :: r2 => some (.jarr (acc ++ [v]), r2)
      | _ => none

end

/-- `json.loads`: a single JSON document surrounded by whitespace. -/
def json_loads (s : String) : Option JValue :=
  match parse_value (2 * s.length + 4) (skip_ws s.data) with
  | some (v, rest) => if skip_ws rest = [] then some v else none
  | none => none

/-! ## Defensive reply parsing (`_parse_json_response`) -/

/-- `_parse_json_response`: strip code fences, slice from the first `{`
to the last `}`, strict-parse, then repair and re-parse; non-dict or
unparseable replies give the empty dict. -/
def parse_json_response (response : String) : Payload :=
  if response = "" then []
  else
    let cleaned := py_strip response
    let cleaned :=
      if py_startswith cleaned "```" then
        let c := py_strip (py_strip_chars ['`'] cleaned)
        if py_startswith (py_lower c) "json" then py_strip ⟨c.data.drop 4⟩ else c
      else cleaned
    let cleaned :=
      match find_char '{' cleaned.data, rfind_char '}' cleaned.data with
      | some s, some e => if s < e then ⟨(cleaned.data.take (e + 1)).drop s⟩ else cleaned
      | _, _ => cleaned
    match json_loads cleaned with
    | some (.jobj f) => f
    | some _ => []
    | none =>
      match json_loads (repair_json_string cleaned) with
      | some (.jobj f) => f
      | _ => []

/-! ## Python `str()` of parsed JSON values

`str(parsed.get(...))` in `_invoke_structured_response` /
`_normalize_list` can receive any parsed value.  `str` of a string is
itself; containers print as Python `repr` (single-quoted strings; repr
escaping of quotes inside strings is not modelled — no claim depends on
it); numbers print as their lexeme (exact for canonical integers). -/

mutual

def py_repr : JValue → String
  | .jnull => "None"
  | .jbool b => if b then "True" else "False"
  | .jnum s => s
  | .jstr s => "'" ++ s ++ "'"
  | .jarr [] => "[]"
  | .jarr (v :: vs) => "[" ++ py_repr_items (v :: vs) ++ "]"
  | .jobj [] => "\x7b\x7d"
  | .jobj (f :: fs) => "\x7b" ++ py_repr_fields (f :: fs) ++ "\x7d"

def py_repr_items : List JValue → String
  | [] => ""
  | [v] => py_repr v
  | v :: w :: ws => py_repr v ++ ", " ++ py_repr_items (w :: ws)

def py_repr_fields : List (String × JValue) → String
  | [] => ""
  | [f] => "'" ++ f.1 ++ "': " ++ py_repr f.2
  | f :: g :: gs => "'" ++ f.1 ++ "': " ++ py_repr f.2 ++ ", " ++ py_repr_fields (g :: gs)

end

/-- Python `str()`. -/
def py_str : JValue → String
  | .jstr s => s
  | v => py_repr v

/-- `str(parsed.get(key, ""))`: absent keys default to the empty string. -/
def py_str_opt : Option JValue → String
  | some v => py_str v
  | none => ""

/-- Python truthiness of a parsed value (`if not value`); numeric zero is
recognised on canonical lexemes. -/
def py_falsy : JValue → Bool
  | .jnull => true
  | .jbool b => !b
  | .jstr s => s = ""
  | .jarr l => l.isEmpty
  | .jobj f => f.isEmpty
  | .jnum s => s = "0" || s = "-0" || s = "0.0" || s = "-0.0"

/-! ## Normalization and fallback text (`_normalize_list`,
`_summary_from_text`) -/

/-- ASCII `[A-Za-z0-9]` (the `_normalize_list` regex class). -/
def is_ascii_alnum (c : Char) : Bool :=
  ('A' ≤ c && c ≤ 'Z') || ('a' ≤ c && c ≤ 'z') || ('0' ≤ c && c ≤ '9')

/-- `_normalize_list`: lists are stringified/trimmed keeping non-empty
entries; a string splits into lines with leading non-alphanumerics
stripped; anything else becomes a one-element list.  The argument is
`parsed.get(key)` (`none` for a missing key, which is falsy). -/
def normalize_list : Option JValue → List String
  | none => []
  | some v =>
    if py_falsy v then []
    else
      match v with
      | .jarr items =>
        (items.map (fun item => py_strip (py_str item))).filter (fun s => s ≠ "")
      | .jstr s =>
        ((py_splitlines s).map
            (fun line => py_strip ⟨line.data.dropWhile (fun c => !is_ascii_alnum c)⟩)).filter
          (fun t => t ≠ "")
      | other => [py_strip (py_str other)]

/-- `_summary_from_text`: first sentence of a description, else its first
line, else a named fallback.  (`text.strip().splitlines()[0]` raises
`IndexError` in the source when `text` is pure whitespace; that case is
unreachable from the callers in `writer.py`, which always pass a stripped
non-empty description, and is modelled as the empty line here.) -/
def summary_from_text (text fallback_name : String) : String :=
  if text = "" then "Summary of " ++ fallback_name ++ "."
  else if py_contains text ". " then py_strip (py_split_head text ". ") ++ "."
  else if py_contains text ".\n" then py_strip (py_split_head text ".\n") ++ "."
  else
    py_strip
      (py_or ((py_splitlines (py_strip text)).headD "")
        ("Summary of " ++ fallback_name ++ "."))

/-! ## Response Invoker (`_invoke_structured_response`) -/

/-- The canonical output contract. -/
structure StructuredRecord where
  description : String
  bullets : List String
  findings : List String
  summary : String

/-- The deterministic generation-failure fallback record. -/
def fallback_record (section_name : String) : StructuredRecord :=
  ⟨"This section covers " ++ section_name ++ ".", [], [],
    "Summary of " ++ section_name ++ "."⟩

/-- `_invoke_structured_response`, given the outcome of the external
generation call (`invoke_llm` either returns the reply text or raises):
on failure, the deterministic fallback; on an unparseable reply, the raw
reply as description with a derived summary; otherwise the parsed fields
with non-empty description/summary enforced. -/
def invoke_structured_response (result : Except Unit String)
    (section_name : String) : StructuredRecord :=
  match result with
  | .error _ => fallback_record section_name
  | .ok response =>
    let parsed := parse_json_response response
    if parsed.isEmpty then
      let description :=
        py_or (py_strip response) ("This section covers " ++ section_name ++ ".")
      ⟨description, [], [], summary_from_text description section_name⟩
    else
      let description0 := py_strip (py_str_opt (payload_get parsed "description"))
      let description :=
        if description0 = "" then "This section covers " ++ section_name ++ "."
        else description0
      let bullets := normalize_list (payload_get parsed "bullets")
      let findings := normalize_list (payload_get parsed "findings")
      let summary0 := py_strip (py_str_opt (payload_get parsed "summary"))
      let summary :=
        if summary0 = "" then summary_from_text description section_name
        else summary0
      ⟨description, bullets, findings, summary⟩

/-! ## Digest Builder (`_summarize_value`, `_build_chunk_digest`) -/

/-- `_summarize_value`: depth-limited lossy structural summary. -/
def summarize_value : ℕ → JValue → JValue
  | 0, value => .jstr (truncate_text (dumps_compact value) 300)
  | d + 1, .jobj fields =>
    .jobj
      [("type", .jstr "dict"),
       ("key_count", .jnum (toString fields.length)),
       ("sample_keys", .jarr ((payload_keys fields).take 5 |>.map .jstr)),
       ("sample", .jobj ((fields.take 5).map (fun kv => (kv.1, summarize_value d kv.2))))]
  | d + 1, .jarr items =>
    .jobj
      [("type", .jstr "list"),
       ("length", .jnum (toString items.length)),
       ("sample", .jarr ((items.take 3).map (summarize_value d)))]
  | _ + 1, .jstr s => .jstr (truncate_text s 300)
  | _ + 1, other => other

/-- `_build_chunk_digest` (`max_depth=2`). -/
def build_chunk_digest (chunk : Payload) : Payload :=
  chunk.map (fun kv => (kv.1, summarize_value 2 kv.2))

/-- `_batch_chunk_digests`'s greedy loop under the digest budget. -/
def batch_chunk_digests_go (sn st sys : String) (spec : ResponseSpec)
    (B : ℕ) (cpt : ℚ) (current : List Payload) :
    List Payload → List (List Payload)
  | [] => if current.isEmpty then [] else [current]
  | digest :: rest =>
    let cand := current ++ [digest]
    if estimate_prompt_tokens cpt (digest_prompt sn st cand spec) sys ≤ B then
      batch_chunk_digests_go sn st sys spec B cpt cand rest
    else
      (if current.isEmpty then [] else [current]) ++
        batch_chunk_digests_go sn st sys spec B cpt [digest] rest

/-- `_batch_chunk_digests`. -/
def batch_chunk_digests (sn st : String) (digests : List Payload)
    (sys : String) (spec : ResponseSpec) (B : ℕ) (cpt : ℚ) :
    List (List Payload) :=
  batch_chunk_digests_go sn st sys spec B cpt [] digests

/-! ## Hierarchical Merger (`_digest_structured_output`,
`_ensure_merge_fit`, `_batch_digests`, `_merge_structured_outputs`) -/

/-- `_digest_structured_output`: truncate the summary to 500 characters,
cap bullets at 7 and findings at 5, each item truncated to 300. -/
def digest_structured_output (output : StructuredRecord) : Payload :=
  [("summary", .jstr (truncate_text (py_strip output.summary) 500)),
   ("bullets",
     .jarr ((output.bullets.map (fun item => JValue.jstr (truncate_text (py_strip item) 300))).take 7)),
   ("findings",
     .jarr ((output.findings.map (fun item => JValue.jstr (truncate_text (py_strip item) 300))).take 5))]

/-- `_ensure_merge_fit`: a digest whose singleton merge prompt exceeds
the merge budget is shrunk to its truncated summary. -/
def ensure_merge_fit (sn st : String) (digest : Payload) (sys : String)
    (B : ℕ) (cpt : ℚ) : Payload :=
  if estimate_prompt_tokens cpt (merge_prompt sn st [digest]) sys ≤ B then digest
  else
    [("summary",
      .jstr (truncate_text (py_strip (py_str_opt (payload_get digest "summary"))) 400))]

/-- `_batch_digests`'s greedy loop under the merge budget. -/
def batch_digests_go (sn st sys : String) (B : ℕ) (cpt : ℚ)
    (current : List Payload) : List Payload → List (List Payload)
  | [] => if current.isEmpty then [] else [current]
  | digest :: rest =>
    let digest := ensure_merge_fit sn st digest sys B cpt
    let cand := current ++ [digest]
    if estimate_prompt_tokens cpt (merge_prompt sn st cand) sys ≤ B then
      batch_digests_go sn st sys B cpt cand rest
    else
      (if current.isEmpty then [] else [current]) ++
        batch_digests_go sn st sys B cpt [digest] rest

/-- `_batch_digests`. -/
def batch_digests (sn st : String) (digests : List Payload) (sys : String)
    (B : ℕ) (cpt : ℚ) : List (List Payload) :=
  batch_digests_go sn st sys B cpt [] digests

/-- One round of the merge loop body: batch the current digests under
the merge budget and invoke one merge per batch. -/
def merge_round (llm : String → String → Except Unit String)
    (sn st : String) (digests : List Payload) (sys : String)
    (B : ℕ) (cpt : ℚ) : List StructuredRecord :=
  (batch_digests sn st digests sys B cpt).map
    (fun batch => invoke_structured_response (llm (merge_prompt sn st batch) sys) sn)

/-- The `while len(merged_outputs) > 1` loop of
`_merge_structured_outputs`, fuel-bounded (the source loop has no bound;
when rounds stop shrinking the frontier it does not terminate, which
surfaces here as fuel exhaustion returning the current head). -/
def merge_go (llm : String → String → Except Unit String)
    (sn st sys : String) (B : ℕ) (cpt : ℚ) :
    ℕ → List StructuredRecord → List Payload → StructuredRecord
  | 0, outs, _ => outs.headD (fallback_record sn)
  | fuel + 1, outs, digs =>
    if outs.length ≤ 1 then outs.headD (fallback_record sn)
    else
      let new_outs := merge_round llm sn st digs sys B cpt
      merge_go llm sn st sys B cpt fuel new_outs
        (new_outs.map digest_structured_output)

/-- `_merge_structured_outputs`. -/
def merge_structured_outputs (llm : String → String → Except Unit String)
    (sn st : String) (outputs : List StructuredRecord) (sys : String)
    (B : ℕ) (cpt : ℚ) (fuel : ℕ) : StructuredRecord :=
  match outputs with
  | [] => fallback_record sn
  | [r] => r
  | outs => merge_go llm sn st sys B cpt fuel outs (outs.map digest_structured_output)

/-! ## Synthesis Orchestrator (`_generate_structured_content`)

`generate_structured_content` returns the merged record together with
the per-chunk "parts" (exposed when more than one chunk output exists);
`generate_structured_content_sends` is the same control flow recording,
in order, every prompt actually sent to the external collaborator. -/

def merge_sends_go (llm : String → String → Except Unit String)
    (sn st sys : String) (B : ℕ) (cpt : ℚ) :
    ℕ → List StructuredRecord → List Payload → List String
  | 0, _, _ => []
  | fuel + 1, outs, digs =>
    if outs.length ≤ 1 then []
    else
      let batches := batch_digests sn st digs sys B cpt
      let new_outs := merge_round llm sn st digs sys B cpt
      batches.map (fun batch => merge_prompt sn st batch) ++
        merge_sends_go llm sn st sys B cpt fuel new_outs
          (new_outs.map digest_structured_output)

/-- Prompts sent by `_merge_structured_outputs` (none for 0/1 records). -/
def merge_sends (llm : String → String → Except Unit String)
    (sn st : String) (outputs : List StructuredRecord) (sys : String)
    (B : ℕ) (cpt : ℚ) (fuel : ℕ) : List String :=
  match outputs with
  | [] => []
  | [_] => []
  | outs => merge_sends_go llm sn st sys B cpt fuel outs (outs.map digest_structured_output)

/-- `_generate_structured_content`. -/
def generate_structured_content (llm : String → String → Except Unit String)
    (sn : String) (content : Payload) (st : String)
    (b_in b_chunk b_digest b_merge max_calls mfc : ℕ) (cpt : ℚ) (fuel : ℕ) :
    StructuredRecord × List StructuredRecord :=
  let system := structured_system_prompt
  let base := response_spec false
  let prompt := structured_prompt sn (dumps_payload content) st base
  if estimate_prompt_tokens cpt prompt system ≤ b_in then
    (invoke_structured_response (llm prompt system) sn, [])
  else
    let chunks := chunk_content sn st content b_chunk cpt mfc
    if chunks.isEmpty then (fallback_record sn, [])
    else
      let detail := response_spec true
      let chunk_outputs :=
        if max_calls < chunks.length then
          let digests := chunks.map build_chunk_digest
          (batch_chunk_digests sn st digests system detail b_digest cpt).map
            (fun batch =>
              invoke_structured_response (llm (digest_prompt sn st batch detail) system) sn)
        else
          chunks.map
            (fun chunk =>
              invoke_structured_response
                (llm (structured_prompt sn (dumps_payload chunk) st detail) system) sn)
      let merged := merge_structured_outputs llm sn st chunk_outputs system b_merge cpt fuel
      (merged, if 1 < chunk_outputs.length then chunk_outputs else [])

/-- Every prompt `_generate_structured_content` sends to the external
collaborator, in order. -/
def generate_structured_content_sends (llm : String → String → Except Unit String)
    (sn : String) (content : Payload) (st : String)
    (b_in b_chunk b_digest b_merge max_calls mfc : ℕ) (cpt : ℚ) (fuel : ℕ) :
    List String :=
  let system := structured_system_prompt
  let base := response_spec false
  let prompt := structured_prompt sn (dumps_payload content) st base
  if estimate_prompt_tokens cpt prompt system ≤ b_in then [prompt]
  else
    let chunks := chunk_content sn st content b_chunk cpt mfc
    if chunks.isEmpty then []
    else
      let detail := response_spec true
      if max_calls < chunks.length then
        let digests := chunks.map build_chunk_digest
        let batches := batch_chunk_digests sn st digests system detail b_digest cpt
        let outs :=
          batches.map
            (fun batch =>
              invoke_structured_response (llm (digest_prompt sn st batch detail) system) sn)
        batches.map (fun batch => digest_prompt sn st batch detail) ++
          merge_sends llm sn st outs system b_merge cpt fuel
      else
        let outs :=
          chunks.map
            (fun chunk =>
              invoke_structured_response
                (llm (structured_prompt sn (dumps_payload chunk) st detail) system) sn)
        chunks.map (fun chunk => structured_prompt sn (dumps_payload chunk) st detail) ++
          merge_sends llm sn st outs system b_merge cpt fuel

/-- Ordered union of a key trace: collapse adjacent equal keys.  The
splitter emits, per source key, a consecutive run of single-key
fragments, so collapsing adjacent duplicates of the concatenated
top-level key lists yields the ordered key union of the chunks. -/
def collapse_runs : List String → List String
  | [] => []
  | [a] => [a]
  | a :: b :: rest =>
    if a = b then collapse_runs (b :: rest) else a :: collapse_runs (b :: rest)

/-! ## Statement apparatus for the repair round-trip claim

`c4_reply` builds the claim's reply family: a JSON-like object
`\x7b"k": "v"\x7d` whose string value may carry raw newlines, carriage
returns and tabs.  `spec_escape_char` is the character rewrite the spec
prescribes inside string literals (raw newline to `\n`, raw carriage
return dropped, raw tab to `\t`); it is written from the spec, to be
compared with what `repair_json_string` actually produces. -/

/-- The per-character rewrite the spec prescribes inside string
literals. -/
def spec_escape_char (c : Char) : List Char :=
  if c = '\n' then ['\\', 'n']
  else if c = '\r' then []
  else if c = '\t' then ['\\', 't']
  else [c]

/-- A reply containing one JSON-like object with a single string field. -/
def c4_reply (k v : String) : String :=
  ⟨'\x7b' :: '"' :: (k.data ++ '"' :: ':' :: ' ' :: '"' :: (v.data ++ ['"', '\x7d']))⟩

/-! # Theorems -/

/-! ## C9: merge identity on 0 and 1 records -/

/-- C9 (confirmed): for every StructuredRecord `r`, merging the
one-element frontier `[r]` returns `r` unchanged, and merging the empty
frontier returns the deterministic fallback record — for any collaborator
oracle, budgets, and fuel (`_merge_structured_outputs` lines 989–997). -/
theorem c9_merge_identity (llm : String → String → Except Unit String)
    (sn st sys : String) (B : ℕ) (cpt : ℚ) (fuel : ℕ) (r : StructuredRecord) :
    merge_structured_outputs llm sn st [r] sys B cpt fuel = r ∧
      merge_structured_outputs llm sn st [] sys B cpt fuel = fallback_record sn :=
  ⟨rfl, rfl⟩

/-! ## C7: generation failure gives the deterministic fallback -/

/-- C7 (confirmed): whenever the external generation call fails, the
Response Invoker returns exactly the deterministic fallback record
`{description: "This section covers <name>.", bullets: [], findings: [],
summary: "Summary of <name>."}` without parsing anything; the error is
absorbed (the embedded function is total and returns this record for
every error value). -/
theorem c7_generation_failure_fallback (e : Unit) (section_name : String) :
    invoke_structured_response (.error e) section_name = fallback_record section_name ∧
      fallback_record section_name =
        ⟨"This section covers " ++ section_name ++ ".", [], [],
          "Summary of " ++ section_name ++ "."⟩ :=
  ⟨rfl, rfl⟩

/-! ## C5: the estimation fallback formula -/

/-- C5 (corrected), counterexample: on the 4-character text `"abcd"`
with the default `charsPerUnit = 4.0`, the fallback estimate is `2`,
whereas `ceil(len/charsPerUnit) = ceil(4/4) = 1`: the code computes
`int(len/cpu) + 1 = floor + 1`, which exceeds the claimed `ceil` exactly
on multiples of `charsPerUnit`. -/
theorem c5_counterexample :
    estimate_tokens LLM_TOKEN_ESTIMATE_CHARS_PER_TOKEN "abcd" = 2 ∧
      Int.toNat ⌈(("abcd".length : ℚ)) / LLM_TOKEN_ESTIMATE_CHARS_PER_TOKEN⌉ = 1 := by
  constructor
  · decide
  · have h4 : ("abcd".length : ℚ) = (4 : ℚ) := by norm_num [String.length]
    rw [h4]
    norm_num [LLM_TOKEN_ESTIMATE_CHARS_PER_TOKEN]

/-- C5 (amended): with the exact tokenizer unavailable, for non-empty
text the fallback returns `ceil(len / max(charsPerUnit, 1)) + 1` when
`len / max(charsPerUnit, 1)` is an integer and exactly
`ceil(len / max(charsPerUnit, 1))` otherwise (and `0` on empty text);
being a total function, it never raises. -/
theorem c5_estimate_fallback (cpt : ℚ) (text : String) (h : text ≠ "") :
    ((∃ n : ℤ, (text.length : ℚ) / max cpt 1 = (n : ℚ)) →
      estimate_tokens cpt text = Int.toNat ⌈(text.length : ℚ) / max cpt 1⌉ + 1) ∧
      ((¬ ∃ n : ℤ, (text.length : ℚ) / max cpt 1 = (n : ℚ)) →
        estimate_tokens cpt text = Int.toNat ⌈(text.length : ℚ) / max cpt 1⌉) := by
  have hc_eq : max cpt 1 = if cpt ≤ 1 then 1 else cpt := max_def cpt 1
  set c : ℚ := max cpt 1 with hc
  have hc1 : 1 ≤ c := le_max_right cpt 1
  have hcpos : 0 < c := lt_of_lt_of_le one_pos hc1
  have hnum_pos : 0 < c.num := Rat.num_pos.mpr hcpos
  have hL : 1 ≤ text.length := by
    rcases Nat.eq_zero_or_pos text.length with h0 | h1
    · exact absurd (String.ext (List.length_eq_zero.mp h0)) h
    · exact h1
  set q : ℚ := (text.length : ℚ) / c with hq
  have hqpos : 0 < q := by
    apply div_pos _ hcpos
    exact_mod_cast hL
  -- the executable integer-division form equals the floor of `q`
  have hden : ((c.den : ℚ)) ≠ 0 := Nat.cast_ne_zero.mpr c.den_nz
  have hcne : c ≠ 0 := ne_of_gt hcpos
  have hnumq_ne : ((c.num : ℚ)) ≠ 0 := by exact_mod_cast hnum_pos.ne'
  have hnum_q : (c.num : ℚ) = c * (c.den : ℚ) :=
    (div_eq_iff hden).mp (Rat.num_div_den c)
  have hfloor : ((text.length : ℤ) * (c.den : ℤ)) / c.num = ⌊q⌋ := by
    have key : (text.length : ℚ) / c = ((text.length : ℚ) * (c.den : ℚ)) / (c.num : ℚ) := by
      rw [div_eq_div_iff hcne hnumq_ne, hnum_q]
      ring
    have htn : ((c.num.toNat : ℕ) : ℚ) = (c.num : ℚ) := by
      exact_mod_cast Int.toNat_of_nonneg (le_of_lt hnum_pos)
    have hq2 : q = (((text.length : ℤ) * (c.den : ℤ) : ℤ) : ℚ) / ((c.num.toNat : ℕ) : ℚ) := by
      rw [hq, key, htn]
      push_cast
      ring
    rw [hq2, Rat.floor_intCast_div_natCast, Int.toNat_of_nonneg (le_of_lt hnum_pos)]
  have hest : estimate_tokens cpt text = Int.toNat ⌊q⌋ + 1 := by
    simp only [estimate_tokens, if_neg h]
    rw [← hc_eq, hfloor]
  have hfloor_nonneg : 0 ≤ ⌊q⌋ := Int.floor_nonneg.mpr (le_of_lt hqpos)
  constructor
  · rintro ⟨n, hn⟩
    have : ⌈q⌉ = ⌊q⌋ := by rw [hq] at hn; rw [hq, hn, Int.ceil_intCast, Int.floor_intCast]
    rw [hest, this]
  · intro hne
    have hfr : ⌊q⌋ < q := by
      rcases lt_or_eq_of_le (Int.floor_le q) with h' | h'
      · exact h'
      · exact absurd ⟨⌊q⌋, h'.symm⟩ hne
    have hceil : ⌈q⌉ = ⌊q⌋ + 1 := by
      apply le_antisymm
      · apply Int.ceil_le.mpr
        push_cast
        exact (Int.lt_floor_add_one q).le
      · have : (⌊q⌋ : ℚ) < (⌈q⌉ : ℚ) := lt_of_lt_of_le hfr (Int.le_ceil q)
        exact_mod_cast this
    rw [hest, hceil]
    omega

/-! ## C6: planned prompt versus sent prompt -/

/-- C6 (corrected), counterexample: a payload that exceeds the input
budget and fits the chunk budget is fit-checked through `_fits_budget`
(which always renders the base response spec) but actually sent with the
detailed response spec: the sole prompt sent is the detailed-spec
rendering, which differs from the base-spec fit-check rendering of the
same payload. -/
theorem c6_counterexample :
    generate_structured_content_sends (fun _ _ => .error ()) "s" [("a", .jnum "1")] "t"
        0 10000 1000 1000 40 8000 4 10 =
      [structured_prompt "s" (dumps_payload [("a", .jnum "1")]) "t" (response_spec true)] ∧
      fits_budget "s" "t" [("a", .jnum "1")] 10000 4 = true ∧
      structured_prompt "s" (dumps_payload [("a", .jnum "1")]) "t" (response_spec true) ≠
        structured_prompt "s" (dumps_payload [("a", .jnum "1")]) "t" (response_spec false) := by
  refine ⟨by decide, by decide, by decide⟩

/-- C6 (amended): on the single-shot path the prompt whose estimate was
checked against the input budget is exactly the prompt sent; on the
per-chunk path every chunk is sent rendered with the *detailed* response
spec, while the Fit Checker that shaped those chunks renders the *base*
spec (`_fits_budget`), so planned and sent prompts differ there in the
response-size values. -/
theorem c6_planned_vs_sent (llm : String → String → Except Unit String)
    (sn st : String) (content : Payload)
    (b_in b_chunk b_digest b_merge max_calls mfc : ℕ) (cpt : ℚ) (fuel : ℕ) :
    (estimate_prompt_tokens cpt
        (structured_prompt sn (dumps_payload content) st (response_spec false))
        structured_system_prompt ≤ b_in →
      generate_structured_content_sends llm sn content st b_in b_chunk b_digest b_merge
          max_calls mfc cpt fuel =
        [structured_prompt sn (dumps_payload content) st (response_spec false)]) ∧
      (¬ estimate_prompt_tokens cpt
          (structured_prompt sn (dumps_payload content) st (response_spec false))
          structured_system_prompt ≤ b_in →
        ¬ (chunk_content sn st content b_chunk cpt mfc).isEmpty = true →
        (chunk_content sn st content b_chunk cpt mfc).length ≤ max_calls →
        generate_structured_content_sends llm sn content st b_in b_chunk b_digest b_merge
            max_calls mfc cpt fuel =
          (chunk_content sn st content b_chunk cpt mfc).map
              (fun chunk => structured_prompt sn (dumps_payload chunk) st (response_spec true)) ++
            merge_sends llm sn st
              ((chunk_content sn st content b_chunk cpt mfc).map
                (fun chunk =>
                  invoke_structured_response
                    (llm (structured_prompt sn (dumps_payload chunk) st (response_spec true))
                      structured_system_prompt) sn))
              structured_system_prompt b_merge cpt fuel) := by
  constructor
  · intro hfit
    simp only [generate_structured_content_sends, if_pos hfit]
  · intro hfit hne hle
    simp only [generate_structured_content_sends, if_neg hfit, if_neg hne,
      if_neg (not_lt.mpr hle)]

/-! ## C2: the budget invariant for sent chunks -/

/-- C2 (corrected), counterexample: with section name `"ss"`, payload
`{"a": 1}`, input budget `0` and chunk budget `160`, the splitter/packer
produce the single untouched chunk `{"a": 1}` — it passed the fit check
(base-spec estimate `160 ≤ 160`), so it is *not* the irreducible-oversize
fallback — yet the prompt actually sent for it is the detailed-spec
rendering whose estimate is `161 > 160`, exceeding the chunk-stage
budget. -/
theorem c2_counterexample :
    chunk_content "ss" "t" [("a", .jnum "1")] 160 4 8000 = [[("a", .jnum "1")]] ∧
      generate_structured_content_sends (fun _ _ => .error ()) "ss" [("a", .jnum "1")] "t"
          0 160 1000 1000 40 8000 4 10 =
        [structured_prompt "ss" (dumps_payload [("a", .jnum "1")]) "t" (response_spec true)] ∧
      estimate_prompt_tokens 4
          (structured_prompt "ss" (dumps_payload [("a", .jnum "1")]) "t" (response_spec true))
          structured_system_prompt = 161 ∧
      fits_budget "ss" "t" [("a", .jnum "1")] 160 4 = true := by
  refine ⟨rfl, rfl, by decide, by decide⟩

/-- Membership in the conditional singleton flushed by the packer. -/
theorem mem_flush {c cur : Payload} {cond : Bool}
    (h : c ∈ (if cond = true then [cur] else [])) : c = cur ∧ cond = true := by
  by_cases hc : cond = true
  · rw [if_pos hc] at h
    exact ⟨List.mem_singleton.mp h, hc⟩
  · rw [if_neg hc] at h
    exact absurd h (List.not_mem_nil c)

/-- Every chunk emitted by the packer loop either passes the Fit Checker
or is the shrink fallback of an input fragment that does not fit alone,
provided the open batch passes the Fit Checker (or is empty). -/
theorem pack_go_fits_or_fallback (sn st : String) (B : ℕ) (cpt : ℚ) (mfc : ℕ)
    (current : Payload) (ps : List Payload) :
    (current = [] ∨ fits_budget sn st current B cpt = true) →
    ∀ c ∈ pack_go sn st B cpt mfc current ps,
      fits_budget sn st c B cpt = true ∨
        ∃ p ∈ ps, fits_budget sn st p B cpt = false ∧
          c = shrink_payload_to_fit sn st p B cpt mfc := by
  induction current, ps using pack_go.induct sn st B cpt mfc with
  | case1 current hemp =>
    intro _ c hc
    simp only [pack_go, if_pos hemp] at hc
    exact absurd hc (List.not_mem_nil c)
  | case2 current hemp =>
    intro hinv c hc
    simp only [pack_go, if_neg hemp] at hc
    obtain rfl := List.mem_singleton.mp hc
    rcases hinv with h | h
    · exact absurd (by simp [h] : List.isEmpty c = true) hemp
    · exact Or.inl h
  | case3 current p rest cur0 cand hfit ih =>
    intro hinv c hc
    have hfit' : fits_budget sn st
        ((if payload_conflict p current = true then ([] : Payload) else current) ++ p) B cpt
          = true := hfit
    simp only [pack_go] at hc
    rw [if_pos hfit'] at hc
    rcases List.mem_append.mp hc with hc' | hc'
    · rcases mem_flush hc' with ⟨rfl, hcond⟩
      have hcond' : payload_conflict p c = true ∧ !List.isEmpty c = true := by
        simpa using hcond
      have hne : ¬ List.isEmpty c = true := by simpa using hcond'.2
      rcases hinv with h | h
      · exact absurd (by simp [h] : List.isEmpty c = true) hne
      · exact Or.inl h
    · rcases ih (Or.inr hfit') c hc' with h | ⟨q, hq, hqf, hqe⟩
      · exact Or.inl h
      · exact Or.inr ⟨q, List.mem_cons_of_mem _ hq, hqf, hqe⟩
  | case4 current p rest cur0 cand hfit ih =>
    intro hinv c hc
    have hfit' : ¬ fits_budget sn st
        ((if payload_conflict p current = true then ([] : Payload) else current) ++ p) B cpt
          = true := hfit
    simp only [pack_go] at hc
    rw [if_neg hfit'] at hc
    rcases List.mem_append.mp hc with hc' | hc'
    · rcases List.mem_append.mp hc' with hc'' | hc''
      · rcases List.mem_append.mp hc'' with h3 | h3
        · rcases mem_flush h3 with ⟨rfl, hcond⟩
          have hcond' : payload_conflict p c = true ∧ !List.isEmpty c = true := by
            simpa using hcond
          have hne : ¬ List.isEmpty c = true := by simpa using hcond'.2
          rcases hinv with h | h
          · exact absurd (by simp [h] : List.isEmpty c = true) hne
          · exact Or.inl h
        · by_cases hpc : payload_conflict p current = true
          · simp [hpc] at h3
          · simp only [if_neg hpc] at h3
            rcases hinv with h | h
            · simp [h] at h3
            · by_cases hce : current.isEmpty = true
              · rw [if_pos hce] at h3
                exact absurd h3 (List.not_mem_nil c)
              · rw [if_neg hce] at h3
                obtain rfl := List.mem_singleton.mp h3
                exact Or.inl h
      · simp only [List.mem_singleton] at hc''
        subst hc''
        by_cases hp : fits_budget sn st p B cpt
        · rw [if_pos hp]
          exact Or.inl hp
        · rw [if_neg hp]
          exact Or.inr ⟨p, List.mem_cons_self p rest, Bool.eq_false_iff.mpr hp, rfl⟩
    · rcases ih (Or.inl rfl) c hc' with h | ⟨q, hq, hqf, hqe⟩
      · exact Or.inl h
      · exact Or.inr ⟨q, List.mem_cons_of_mem _ hq, hqf, hqe⟩

/-- C2 (amended): for every chunk the splitter/packer emit, the prompt
checked by the Fit Checker (base response spec, the spec under which the
chunk was constructed) satisfies `estimate ≤ chunk budget`, except when
the chunk is the documented shrink fallback of a fragment that did not
fit alone; the prompt *actually sent* for a chunk is the detailed-spec
rendering and may exceed the budget near it (see the counterexample). -/
theorem c2_pack_budget_invariant (sn st : String) (ps : List Payload)
    (B : ℕ) (cpt : ℚ) (mfc : ℕ) :
    ∀ c ∈ pack_payloads sn st ps B cpt mfc,
      fits_budget sn st c B cpt = true ∨
        ∃ p ∈ ps, fits_budget sn st p B cpt = false ∧
          c = shrink_payload_to_fit sn st p B cpt mfc :=
  pack_go_fits_or_fallback sn st B cpt mfc [] ps (Or.inl rfl)

/-- Witness for `c2_pack_budget_invariant` at a concrete packing. -/
theorem c2_pack_budget_invariant_witness :
    fits_budget "s" "t" [("a", .jnum "1")] 1000 4 = true ∨
      ∃ p ∈ [[("a", .jnum "1")]], fits_budget "s" "t" p 1000 4 = false ∧
        [("a", JValue.jnum "1")] = shrink_payload_to_fit "s" "t" p 1000 4 8000 :=
  c2_pack_budget_invariant "s" "t" [[("a", .jnum "1")]] 1000 4 8000
    [("a", .jnum "1")] (List.mem_singleton.mpr rfl)

/-! ## C1: merge-round progress and termination -/

/-- C1 (corrected), counterexample: a merge round on a frontier of two
records whose digests each fit the merge budget alone (estimate `161 ≤
170`) but not together (`179 > 170`) produces two singleton batches and
therefore exactly as many records as it consumed — not strictly fewer.
The `while len > 1` loop of `_merge_structured_outputs` makes no progress
on such a round, so the loop is not guaranteed to terminate either. -/
theorem c1_counterexample :
    (merge_round (fun _ _ => .error ()) "s" "t"
        (([⟨"", [], [], "short"⟩, ⟨"", [], [], "short"⟩] : List StructuredRecord).map
          digest_structured_output)
        structured_system_prompt 170 4).length = 2 := by
  decide

/-- The greedy digest batching never returns zero batches on a non-empty
input (each record lands in exactly one batch). -/
theorem batch_digests_go_pos (sn st sys : String) (B : ℕ) (cpt : ℚ)
    (current : List Payload) (ds : List Payload) :
    (¬ current.isEmpty = true ∨ ds ≠ []) →
    1 ≤ (batch_digests_go sn st sys B cpt current ds).length := by
  induction current, ds using batch_digests_go.induct sn st sys B cpt with
  | case1 current hemp =>
    intro h
    rcases h with h | h
    · exact absurd hemp h
    · exact absurd rfl h
  | case2 current hemp =>
    intro _
    simp [batch_digests_go, if_neg hemp]
  | case3 current digest rest digest' cand hfit ih =>
    intro _
    have hfit' : estimate_prompt_tokens cpt
        (merge_prompt sn st (current ++ [ensure_merge_fit sn st digest sys B cpt])) sys ≤ B :=
      hfit
    have ih' : (¬ (current ++ [ensure_merge_fit sn st digest sys B cpt]).isEmpty = true ∨
          rest ≠ []) →
        1 ≤ (batch_digests_go sn st sys B cpt
          (current ++ [ensure_merge_fit sn st digest sys B cpt]) rest).length := ih
    simp only [batch_digests_go]
    rw [if_pos hfit']
    exact ih' (Or.inl (by simp))
  | case4 current digest rest digest' cand hfit ih =>
    intro _
    have hfit' : ¬ estimate_prompt_tokens cpt
        (merge_prompt sn st (current ++ [ensure_merge_fit sn st digest sys B cpt])) sys ≤ B :=
      hfit
    have ih' : (¬ ([ensure_merge_fit sn st digest sys B cpt] : List Payload).isEmpty = true ∨
          rest ≠ []) →
        1 ≤ (batch_digests_go sn st sys B cpt
          [ensure_merge_fit sn st digest sys B cpt] rest).length := ih
    simp only [batch_digests_go]
    rw [if_neg hfit']
    have h1 := ih' (Or.inl (by simp))
    rw [List.length_append]
    omega

/-- Under the merge budget, if every two shrunk digests fit one batch,
the greedy batching closes batches only at size ≥ 2 (the last may be a
singleton): twice the number of batches is at most the number of records
plus one. -/
theorem batch_digests_go_len (sn st sys : String) (B : ℕ) (cpt : ℚ)
    (P : Payload → Prop)
    (hP : ∀ d1 d2, P d1 → P d2 →
      estimate_prompt_tokens cpt (merge_prompt sn st [d1, d2]) sys ≤ B)
    (current : List Payload) (ds : List Payload) :
    (∀ x ∈ current, P x) →
    (∀ d ∈ ds, P (ensure_merge_fit sn st d sys B cpt)) →
    2 * (batch_digests_go sn st sys B cpt current ds).length ≤
      current.length + ds.length + 1 := by
  induction current, ds using batch_digests_go.induct sn st sys B cpt with
  | case1 current hemp =>
    intro _ _
    simp only [batch_digests_go, if_pos hemp]
    simp
  | case2 current hemp =>
    intro _ _
    simp only [batch_digests_go, if_neg hemp]
    have hne : current ≠ [] := by simpa [List.isEmpty_iff] using hemp
    have h1 : 1 ≤ current.length := List.length_pos.mpr hne
    simp only [List.length_cons, List.length_nil]
    omega
  | case3 current digest rest digest' cand hfit ih =>
    intro hcur hds
    have hfit' : estimate_prompt_tokens cpt
        (merge_prompt sn st (current ++ [ensure_merge_fit sn st digest sys B cpt])) sys ≤ B :=
      hfit
    simp only [batch_digests_go]
    rw [if_pos hfit']
    have hcand : ∀ x ∈ current ++ [ensure_merge_fit sn st digest sys B cpt], P x := by
      intro x hx
      rcases List.mem_append.mp hx with hx | hx
      · exact hcur x hx
      · obtain rfl := List.mem_singleton.mp hx
        exact hds digest (List.mem_cons_self _ _)
    have ih' : (∀ x ∈ current ++ [ensure_merge_fit sn st digest sys B cpt], P x) →
        (∀ d ∈ rest, P (ensure_merge_fit sn st d sys B cpt)) →
        2 * (batch_digests_go sn st sys B cpt
            (current ++ [ensure_merge_fit sn st digest sys B cpt]) rest).length ≤
          (current ++ [ensure_merge_fit sn st digest sys B cpt]).length + rest.length + 1 := ih
    have hb := ih' hcand (fun d hd => hds d (List.mem_cons_of_mem _ hd))
    rw [List.length_append] at hb
    simp only [List.length_cons, List.length_nil] at hb ⊢
    omega
  | case4 current digest rest digest' cand hfit ih =>
    intro hcur hds
    have hfit' : ¬ estimate_prompt_tokens cpt
        (merge_prompt sn st (current ++ [ensure_merge_fit sn st digest sys B cpt])) sys ≤ B :=
      hfit
    simp only [batch_digests_go]
    rw [if_neg hfit']
    have hone : ∀ x ∈ [ensure_merge_fit sn st digest sys B cpt], P x := by
      intro x hx
      obtain rfl := List.mem_singleton.mp hx
      exact hds digest (List.mem_cons_self _ _)
    have ih' : (∀ x ∈ ([ensure_merge_fit sn st digest sys B cpt] : List Payload), P x) →
        (∀ d ∈ rest, P (ensure_merge_fit sn st d sys B cpt)) →
        2 * (batch_digests_go sn st sys B cpt
            [ensure_merge_fit sn st digest sys B cpt] rest).length ≤
          ([ensure_merge_fit sn st digest sys B cpt] : List Payload).length + rest.length + 1 :=
      ih
    have hrec := ih' hone (fun d hd => hds d (List.mem_cons_of_mem _ hd))
    simp only [List.length_cons, List.length_nil] at hrec
    by_cases hemp : current.isEmpty = true
    · obtain rfl : current = [] := List.isEmpty_iff.mp hemp
      rw [if_pos hemp]
      simp only [List.nil_append, List.length_nil, List.length_cons]
      omega
    · rw [if_neg hemp]
      -- the flushed batch has at least two digests: a singleton batch
      -- would have accepted the next digest by the pair-fit hypothesis
      have hcur2 : 2 ≤ current.length := by
        rcases current with _ | ⟨x, t⟩
        · simp at hemp
        · rcases t with _ | ⟨y, t2⟩
          · exfalso
            apply hfit'
            have := hP x (ensure_merge_fit sn st digest sys B cpt)
              (hcur x (List.mem_cons_self _ _)) (hds digest (List.mem_cons_self _ _))
            simpa using this
          · simp [List.length_cons]
      rw [List.length_append]
      simp only [List.length_cons, List.length_nil] at *
      omega

/-- C1 (amended): a merge round (digest the records, shrink oversize
digests, batch them under the merge budget, one merge call per batch)
always produces at least one record, and produces *strictly fewer*
records than it consumed whenever every two of the round's shrunk
digests fit one merge batch together — without that proviso a round can
return exactly as many records as it consumed (see the counterexample)
and the merge loop need not terminate. -/
theorem c1_merge_round_progress (llm : String → String → Except Unit String)
    (sn st sys : String) (B : ℕ) (cpt : ℚ) (outs : List StructuredRecord)
    (h2 : 2 ≤ outs.length)
    (hp : ∀ d1 ∈ (outs.map digest_structured_output).map
            (fun d => ensure_merge_fit sn st d sys B cpt),
          ∀ d2 ∈ (outs.map digest_structured_output).map
            (fun d => ensure_merge_fit sn st d sys B cpt),
          estimate_prompt_tokens cpt (merge_prompt sn st [d1, d2]) sys ≤ B) :
    1 ≤ (merge_round llm sn st (outs.map digest_structured_output) sys B cpt).length ∧
      (merge_round llm sn st (outs.map digest_structured_output) sys B cpt).length <
        outs.length := by
  have hlen : (merge_round llm sn st (outs.map digest_structured_output) sys B cpt).length =
      (batch_digests sn st (outs.map digest_structured_output) sys B cpt).length := by
    simp [merge_round]
  have hne : outs.map digest_structured_output ≠ [] := by
    intro h
    have h0 : outs.length = 0 := by
      have := congrArg List.length h
      simpa using this
    omega
  have hpos := batch_digests_go_pos sn st sys B cpt []
    (outs.map digest_structured_output) (Or.inr hne)
  have hbound := batch_digests_go_len sn st sys B cpt
    (fun x => x ∈ (outs.map digest_structured_output).map
      (fun d => ensure_merge_fit sn st d sys B cpt))
    (fun d1 d2 h1 h2 => hp d1 h1 d2 h2) [] (outs.map digest_structured_output)
    (by intro x hx; exact absurd hx (List.not_mem_nil x))
    (by
      intro d hd
      exact List.mem_map.mpr ⟨d, hd, rfl⟩)
  simp only [List.length_nil, List.length_map, Nat.zero_add] at hbound
  rw [hlen]
  constructor
  · exact hpos
  · have : (batch_digests sn st (outs.map digest_structured_output) sys B cpt).length =
        (batch_digests_go sn st sys B cpt [] (outs.map digest_structured_output)).length :=
      rfl
    rw [this]
    omega

/-- Witness for `c1_merge_round_progress`: with a generous merge budget a
two-record frontier collapses to a single record in one round. -/
theorem c1_merge_round_progress_witness :
    1 ≤ (merge_round (fun _ _ => .error ()) "s" "t"
        (([⟨"", [], [], "short"⟩, ⟨"", [], [], "long"⟩] : List StructuredRecord).map
          digest_structured_output)
        structured_system_prompt 10000 4).length ∧
      (merge_round (fun _ _ => .error ()) "s" "t"
          (([⟨"", [], [], "short"⟩, ⟨"", [], [], "long"⟩] : List StructuredRecord).map
            digest_structured_output)
          structured_system_prompt 10000 4).length <
        ([⟨"", [], [], "short"⟩, ⟨"", [], [], "long"⟩] : List StructuredRecord).length :=
  c1_merge_round_progress (fun _ _ => .error ()) "s" "t" structured_system_prompt 10000 4
    [⟨"", [], [], "short"⟩, ⟨"", [], [], "long"⟩] (by decide) (by decide)

/-! ## C3: key coverage of the splitter/packer -/

/-- The shrink fallback of a single-key payload keeps its key. -/
theorem shrink_keys_single (sn st : String) (B : ℕ) (cpt : ℚ) (mfc : ℕ)
    (k : String) (v : JValue) :
    payload_keys (shrink_payload_to_fit sn st [(k, v)] B cpt mfc) = [k] := by
  cases v <;> rfl

theorem split_text_ne_nil (s : String) (mfc : ℕ) : split_text s mfc ≠ [] := by
  unfold split_text
  by_cases h : s = ""
  · simp [h]
  · rw [if_neg h]
    rcases hdata : s.data with _ | ⟨c, t⟩
    · exact absurd (congrArg String.mk hdata) h
    · simp [hdata, split_text_go]

/-- Every fragment emitted by `_split_list_item`'s loop is a single-key
payload under the loop's key. -/
theorem split_list_go_shape (sn st k : String) (B : ℕ) (cpt : ℚ) (mfc : ℕ)
    (cur items : List JValue) :
    ∀ frag ∈ split_list_go sn st k B cpt mfc cur items, ∃ x, frag = [(k, x)] := by
  induction cur, items using split_list_go.induct sn st k B cpt mfc with
  | case1 cur hemp =>
    intro frag hf
    simp only [split_list_go, if_pos hemp] at hf
    exact absurd hf (List.not_mem_nil frag)
  | case2 cur hemp =>
    intro frag hf
    simp only [split_list_go, if_neg hemp, List.mem_singleton] at hf
    exact ⟨.jarr cur, hf⟩
  | case3 cur item rest cand hfit ih =>
    intro frag hf
    have hfit' : fits_budget sn st [(k, .jarr (cur ++ [item]))] B cpt = true := hfit
    simp only [split_list_go] at hf
    rw [if_pos hfit'] at hf
    exact ih frag hf
  | case4 cur item rest cand hfit ih1 ih0 =>
    intro frag hf
    have hfit' : ¬ fits_budget sn st [(k, .jarr (cur ++ [item]))] B cpt = true := hfit
    simp only [split_list_go] at hf
    rw [if_neg hfit'] at hf
    rcases List.mem_append.mp hf with hf' | hf'
    · by_cases hemp : cur.isEmpty = true
      · rw [if_pos hemp] at hf'
        exact absurd hf' (List.not_mem_nil frag)
      · rw [if_neg hemp] at hf'
        obtain rfl := List.mem_singleton.mp hf'
        exact ⟨.jarr cur, rfl⟩
    · by_cases hone : fits_budget sn st [(k, .jarr [item])] B cpt = true
      · rw [if_pos hone] at hf'
        exact ih1 frag hf'
      · rw [if_neg hone] at hf'
        rcases List.mem_append.mp hf' with hf'' | hf''
        · cases item with
          | jstr s =>
            simp only [List.mem_map] at hf''
            obtain ⟨seg, -, rfl⟩ := hf''
            exact ⟨.jarr [.jstr seg], rfl⟩
          | jnull => obtain rfl := List.mem_singleton.mp hf''; exact ⟨_, rfl⟩
          | jbool b => obtain rfl := List.mem_singleton.mp hf''; exact ⟨_, rfl⟩
          | jnum s => obtain rfl := List.mem_singleton.mp hf''; exact ⟨_, rfl⟩
          | jarr l => obtain rfl := List.mem_singleton.mp hf''; exact ⟨_, rfl⟩
          | jobj f => obtain rfl := List.mem_singleton.mp hf''; exact ⟨_, rfl⟩
        · exact ih0 frag hf''

theorem split_list_item_shape (sn st k : String) (value : List JValue)
    (B : ℕ) (cpt : ℚ) (mfc : ℕ) :
    ∀ frag ∈ split_list_item sn st k value B cpt mfc, ∃ x, frag = [(k, x)] := by
  intro frag hf
  unfold split_list_item at hf
  rcases h : split_list_go sn st k B cpt mfc [] value with _ | ⟨c, cs⟩
  · rw [h] at hf
    obtain rfl := List.mem_singleton.mp hf
    exact ⟨.jarr [], rfl⟩
  · rw [h] at hf
    exact split_list_go_shape sn st k B cpt mfc [] value frag (h ▸ hf)

theorem split_list_item_ne_nil (sn st k : String) (value : List JValue)
    (B : ℕ) (cpt : ℚ) (mfc : ℕ) :
    split_list_item sn st k value B cpt mfc ≠ [] := by
  unfold split_list_item
  rcases h : split_list_go sn st k B cpt mfc [] value with _ | ⟨c, cs⟩
  · simp
  · simp

/-! Cheap per-constructor unfolding equations for the mutual
`expand_item`/`chunk_collect` recursion. -/

theorem expand_item_jnull (sn st : String) (B : ℕ) (cpt : ℚ) (mfc : ℕ)
    (k : String) :
    expand_item sn st B cpt mfc k .jnull =
      if fits_budget sn st [(k, .jnull)] B cpt then [[(k, .jnull)]]
      else [[(k, .jnull)]] := rfl

theorem expand_item_jbool (sn st : String) (B : ℕ) (cpt : ℚ) (mfc : ℕ)
    (k : String) (b : Bool) :
    expand_item sn st B cpt mfc k (.jbool b) =
      if fits_budget sn st [(k, .jbool b)] B cpt then [[(k, .jbool b)]]
      else [[(k, .jbool b)]] := rfl

theorem expand_item_jnum (sn st : String) (B : ℕ) (cpt : ℚ) (mfc : ℕ)
    (k s : String) :
    expand_item sn st B cpt mfc k (.jnum s) =
      if fits_budget sn st [(k, .jnum s)] B cpt then [[(k, .jnum s)]]
      else [[(k, .jnum s)]] := rfl

theorem expand_item_jstr (sn st : String) (B : ℕ) (cpt : ℚ) (mfc : ℕ)
    (k s : String) :
    expand_item sn st B cpt mfc k (.jstr s) =
      if fits_budget sn st [(k, .jstr s)] B cpt then [[(k, .jstr s)]]
      else (split_text s mfc).map (fun seg => [(k, .jstr seg)]) := rfl

theorem expand_item_jarr (sn st : String) (B : ℕ) (cpt : ℚ) (mfc : ℕ)
    (k : String) (items : List JValue) :
    expand_item sn st B cpt mfc k (.jarr items) =
      if fits_budget sn st [(k, .jarr items)] B cpt then [[(k, .jarr items)]]
      else split_list_item sn st k items B cpt mfc := rfl

theorem expand_item_jobj (sn st : String) (B : ℕ) (cpt : ℚ) (mfc : ℕ)
    (k : String) (fields : List (String × JValue)) :
    expand_item sn st B cpt mfc k (.jobj fields) =
      if fits_budget sn st [(k, .jobj fields)] B cpt then [[(k, .jobj fields)]]
      else
        match pack_payloads sn st (chunk_collect sn st B cpt mfc fields) B cpt mfc with
        | [] => [[(k, .jobj [])]]
        | sub :: subs => (sub :: subs).map (fun subchunk => [(k, .jobj subchunk)]) := rfl

theorem chunk_collect_nil (sn st : String) (B : ℕ) (cpt : ℚ) (mfc : ℕ) :
    chunk_collect sn st B cpt mfc [] = [] := rfl

theorem chunk_collect_cons (sn st : String) (B : ℕ) (cpt : ℚ) (mfc : ℕ)
    (k : String) (v : JValue) (rest : List (String × JValue)) :
    chunk_collect sn st B cpt mfc ((k, v) :: rest) =
      expand_item sn st B cpt mfc k v ++ chunk_collect sn st B cpt mfc rest := rfl

/-- Every fragment `_expand_item` emits for key `k` is a single-key
payload `{k: x}`. -/
theorem expand_item_shape (sn st : String) (B : ℕ) (cpt : ℚ) (mfc : ℕ)
    (k : String) (v : JValue) :
    ∀ frag ∈ expand_item sn st B cpt mfc k v, ∃ x, frag = [(k, x)] := by
  intro frag hf
  cases v with
  | jnull =>
    rw [expand_item_jnull, ite_self] at hf
    obtain rfl := List.mem_singleton.mp hf
    exact ⟨_, rfl⟩
  | jbool b =>
    rw [expand_item_jbool, ite_self] at hf
    obtain rfl := List.mem_singleton.mp hf
    exact ⟨_, rfl⟩
  | jnum s =>
    rw [expand_item_jnum, ite_self] at hf
    obtain rfl := List.mem_singleton.mp hf
    exact ⟨_, rfl⟩
  | jstr s =>
    rw [expand_item_jstr] at hf
    split at hf
    · obtain rfl := List.mem_singleton.mp hf
      exact ⟨_, rfl⟩
    · simp only [List.mem_map] at hf
      obtain ⟨seg, -, rfl⟩ := hf
      exact ⟨.jstr seg, rfl⟩
  | jarr items =>
    rw [expand_item_jarr] at hf
    split at hf
    · obtain rfl := List.mem_singleton.mp hf
      exact ⟨_, rfl⟩
    · exact split_list_item_shape sn st k items B cpt mfc frag hf
  | jobj fields =>
    rw [expand_item_jobj] at hf
    split at hf
    · obtain rfl := List.mem_singleton.mp hf
      exact ⟨_, rfl⟩
    · rcases h : pack_payloads sn st (chunk_collect sn st B cpt mfc fields) B cpt mfc with
        _ | ⟨sub, subs⟩
      · rw [h] at hf
        obtain rfl := List.mem_singleton.mp hf
        exact ⟨.jobj [], rfl⟩
      · rw [h] at hf
        simp only [List.mem_map] at hf
        obtain ⟨sub', -, rfl⟩ := hf
        exact ⟨.jobj sub', rfl⟩

theorem expand_item_ne_nil (sn st : String) (B : ℕ) (cpt : ℚ) (mfc : ℕ)
    (k : String) (v : JValue) :
    expand_item sn st B cpt mfc k v ≠ [] := by
  cases v with
  | jnull => rw [expand_item_jnull, ite_self]; simp
  | jbool b => rw [expand_item_jbool, ite_self]; simp
  | jnum s => rw [expand_item_jnum, ite_self]; simp
  | jstr s =>
    rw [expand_item_jstr]
    split
    · simp
    · simp only [ne_eq, List.map_eq_nil_iff]
      exact split_text_ne_nil s mfc
  | jarr items =>
    rw [expand_item_jarr]
    split
    · simp
    · exact split_list_item_ne_nil sn st k items B cpt mfc
  | jobj fields =>
    rw [expand_item_jobj]
    split
    · simp
    · rcases h : pack_payloads sn st (chunk_collect sn st B cpt mfc fields) B cpt mfc with
        _ | ⟨sub, subs⟩
      · simp
      · simp

/-- Keys contributed by a conditional flush. -/
theorem flush_keys (l : Payload) :
    (((if l.isEmpty = true then ([] : List Payload) else [l]).map payload_keys)).flatten =
      payload_keys l := by
  by_cases h : l.isEmpty = true
  · obtain rfl := List.isEmpty_iff.mp h
    simp [payload_keys]
  · rw [if_neg h]
    simp

/-- The packer only regroups fragments: the concatenation of top-level
keys across its output equals the concatenation across its input (for
single-key inputs, whose shrink fallback keeps the key). -/
theorem pack_go_keys (sn st : String) (B : ℕ) (cpt : ℚ) (mfc : ℕ)
    (current : Payload) (ps : List Payload) :
    (∀ p ∈ ps, ∃ k x, p = [(k, x)]) →
    ((pack_go sn st B cpt mfc current ps).map payload_keys).flatten =
      payload_keys current ++ ((ps.map payload_keys)).flatten := by
  induction current, ps using pack_go.induct sn st B cpt mfc with
  | case1 current hemp =>
    intro _
    obtain rfl : current = [] := List.isEmpty_iff.mp hemp
    simp [pack_go, payload_keys]
  | case2 current hemp =>
    intro _
    simp [pack_go, if_neg hemp]
  | case3 current p rest cur0 cand hfit ih =>
    intro hs
    have hfit' : fits_budget sn st
        ((if payload_conflict p current = true then ([] : Payload) else current) ++ p) B cpt
          = true := hfit
    simp only [pack_go]
    rw [if_pos hfit']
    rw [List.map_append, List.flatten_append]
    rw [ih (fun q hq => hs q (List.mem_cons_of_mem _ hq))]
    rw [List.map_cons, List.flatten_cons]
    have hck : payload_keys cand =
        payload_keys (if payload_conflict p current = true then ([] : Payload) else current) ++
          payload_keys p := List.map_append _ _ _
    rw [hck]
    by_cases hconf : payload_conflict p current = true
    · rw [if_pos hconf]
      by_cases hemp : current.isEmpty = true
      · obtain rfl : current = [] := List.isEmpty_iff.mp hemp
        simp [payload_keys]
      · rw [if_pos (show (payload_conflict p current && !current.isEmpty) = true by
          simp [hconf, hemp])]
        simp [payload_keys]
    · rw [if_neg hconf,
        if_neg (show ¬ (payload_conflict p current && !current.isEmpty) = true by
          simp [hconf])]
      simp [payload_keys]
  | case4 current p rest cur0 cand hfit ih =>
    intro hs
    have hfit' : ¬ fits_budget sn st
        ((if payload_conflict p current = true then ([] : Payload) else current) ++ p) B cpt
          = true := hfit
    simp only [pack_go]
    rw [if_neg hfit']
    have hpk : payload_keys
        (if fits_budget sn st p B cpt = true then p
         else shrink_payload_to_fit sn st p B cpt mfc) = payload_keys p := by
      by_cases hfp : fits_budget sn st p B cpt = true
      · rw [if_pos hfp]
      · rw [if_neg hfp]
        obtain ⟨k, x, rfl⟩ := hs p (List.mem_cons_self _ _)
        rw [shrink_keys_single]
        rfl
    rw [List.map_append, List.flatten_append, List.map_append, List.flatten_append,
      List.map_append, List.flatten_append]
    rw [ih (fun q hq => hs q (List.mem_cons_of_mem _ hq))]
    rw [List.map_cons, List.flatten_cons]
    simp only [List.map_cons, List.map_nil, List.flatten_cons, List.flatten_nil,
      List.append_nil]
    rw [hpk]
    by_cases hconf : payload_conflict p current = true
    · rw [if_pos hconf]
      by_cases hemp : current.isEmpty = true
      · obtain rfl : current = [] := List.isEmpty_iff.mp hemp
        rw [if_neg (show ¬ (payload_conflict p [] && !(List.isEmpty ([] : Payload))) = true by
          simp)]
        simp [payload_keys]
      · rw [if_pos (show (payload_conflict p current && !current.isEmpty) = true by
          simp [hconf, hemp])]
        simp [payload_keys]
    · rw [if_neg hconf,
        if_neg (show ¬ (payload_conflict p current && !current.isEmpty) = true by
          simp [hconf])]
      rw [flush_keys]
      simp [payload_keys]


/-- Fragments of `_chunk_mapping_payloads`'s expansion loop are single-key
payloads. -/
theorem chunk_collect_shape (sn st : String) (B : ℕ) (cpt : ℚ) (mfc : ℕ)
    (m : List (String × JValue)) :
    ∀ frag ∈ chunk_collect sn st B cpt mfc m, ∃ k x, frag = [(k, x)] := by
  induction m with
  | nil =>
    intro frag hf
    rw [chunk_collect_nil] at hf
    exact absurd hf (List.not_mem_nil frag)
  | cons kv rest ih =>
    intro frag hf
    obtain ⟨k, v⟩ := kv
    rw [chunk_collect_cons] at hf
    rcases List.mem_append.mp hf with hf' | hf'
    · obtain ⟨x, rfl⟩ := expand_item_shape sn st B cpt mfc k v frag hf'
      exact ⟨k, x, rfl⟩
    · exact ih frag hf'

/-- When every fragment of a list is a single-key payload under `k`, the
flattened key lists are a constant run of `k`. -/
theorem keys_flatten_of_shape (L : List Payload) (k : String)
    (h : ∀ frag ∈ L, ∃ x, frag = [(k, x)]) :
    (L.map payload_keys).flatten = List.replicate L.length k := by
  induction L with
  | nil => rfl
  | cons frag rest ih =>
    obtain ⟨x, rfl⟩ := h frag (List.mem_cons_self _ _)
    rw [List.map_cons, List.flatten_cons, List.length_cons, List.replicate_succ,
      ih (fun q hq => h q (List.mem_cons_of_mem _ hq))]
    rfl

/-- The flattened key lists of the expansion loop are the per-key runs of
the input mapping, in order. -/
theorem chunk_collect_keys (sn st : String) (B : ℕ) (cpt : ℚ) (mfc : ℕ)
    (m : List (String × JValue)) :
    ((chunk_collect sn st B cpt mfc m).map payload_keys).flatten =
      (m.map (fun kv =>
        List.replicate (expand_item sn st B cpt mfc kv.1 kv.2).length kv.1)).flatten := by
  induction m with
  | nil => rfl
  | cons kv rest ih =>
    obtain ⟨k, v⟩ := kv
    rw [chunk_collect_cons, List.map_append, List.flatten_append, ih,
      List.map_cons, List.flatten_cons,
      keys_flatten_of_shape _ k (expand_item_shape sn st B cpt mfc k v)]

theorem collapse_runs_replicate_append (n : ℕ) (k : String) (l : List String)
    (hn : 1 ≤ n) (hl : l.head? ≠ some k) :
    collapse_runs (List.replicate n k ++ l) = k :: collapse_runs l := by
  induction n with
  | zero => omega
  | succ m ih =>
    rcases Nat.eq_or_lt_of_le hn with h1 | h2
    · obtain rfl : m = 0 := by omega
      rw [List.replicate_succ, List.replicate_zero]
      rw [show ((k :: []) ++ l) = k :: l from rfl]
      rcases l with _ | ⟨b, t⟩
      · rfl
      · have hkb : ¬ k = b := by
          intro h
          exact hl (by simp [h])
        rw [show collapse_runs (k :: b :: t) =
            if k = b then collapse_runs (b :: t) else k :: collapse_runs (b :: t) from rfl,
          if_neg hkb]
    · have hm : 1 ≤ m := by omega
      rw [List.replicate_succ, List.cons_append]
      have hrep : List.replicate m k ++ l = k :: (List.replicate (m - 1) k ++ l) := by
        rcases m with _ | m'
        · omega
        · rw [List.replicate_succ, List.cons_append]
          simp
      rw [hrep,
        show collapse_runs (k :: k :: (List.replicate (m - 1) k ++ l)) =
          if k = k then collapse_runs (k :: (List.replicate (m - 1) k ++ l))
          else k :: collapse_runs (k :: (List.replicate (m - 1) k ++ l)) from rfl,
        if_pos rfl, ← hrep]
      exact ih hm

theorem replicate_append_head (m : ℕ) (a : String) (l : List String) (hm : 1 ≤ m) :
    (List.replicate m a ++ l).head? = some a := by
  rcases m with _ | m'
  · omega
  · rw [List.replicate_succ, List.cons_append, List.head?_cons]

/-- Collapsing the concatenation of nonempty constant runs over distinct
keys recovers the key list. -/
theorem collapse_flatten_replicate (l : List (String × JValue))
    (n : String × JValue → ℕ) (hn : ∀ kv ∈ l, 1 ≤ n kv)
    (hd : (l.map Prod.fst).Nodup) :
    collapse_runs ((l.map (fun kv => List.replicate (n kv) kv.1)).flatten) =
      l.map Prod.fst := by
  induction l with
  | nil => rfl
  | cons kv rest ih =>
    obtain ⟨k, v⟩ := kv
    rw [List.map_cons, List.flatten_cons]
    have hn1 : 1 ≤ n (k, v) := hn (k, v) (List.mem_cons_self _ _)
    have hdr : (rest.map Prod.fst).Nodup := (List.nodup_cons.mp hd).2
    have hknr : k ∉ rest.map Prod.fst := (List.nodup_cons.mp hd).1
    rcases rest with _ | ⟨⟨k2, v2⟩, rest2⟩
    · rw [List.map_nil, List.flatten_nil, List.append_nil,
        show (List.replicate (n (k, v)) k) = List.replicate (n (k, v)) k ++ [] by simp,
        collapse_runs_replicate_append _ _ _ hn1 (by simp)]
      rfl
    · have hne : ¬ k2 = k := by
        intro h
        exact hknr (by simp [h])
      have hhd : ((((k2, v2) :: rest2).map
          (fun kv => List.replicate (n kv) kv.1)).flatten).head? = some k2 := by
        rw [List.map_cons, List.flatten_cons]
        exact replicate_append_head _ _ _ (hn (k2, v2) (List.mem_cons_of_mem _ (List.mem_cons_self _ _)))
      rw [collapse_runs_replicate_append _ _ _ hn1 (by rw [hhd]; simp [hne]),
        ih (fun q hq => hn q (List.mem_cons_of_mem _ hq)) hdr]
      rfl

/-- C3: key coverage of the chunk splitter. For every mapping payload `P`
with duplicate-free top-level keys and every budget, collapsing the
adjacent runs of the concatenated top-level key lists of the chunks
returned by `_chunk_mapping_payloads` yields exactly the key list of `P`,
in `P`'s order: every key of `P` appears in the chunks (as a contiguous
run), no other key ever appears (the shrink fallback of a single-key
fragment keeps its key), and the relative order of `P` is preserved. -/
theorem c3_coverage (sn st : String) (P : Payload) (B : ℕ) (cpt : ℚ) (mfc : ℕ)
    (hd : (payload_keys P).Nodup) :
    collapse_runs
        (((chunk_mapping_payloads sn st P B cpt mfc).map payload_keys).flatten) =
      payload_keys P := by
  unfold chunk_mapping_payloads pack_payloads
  rw [pack_go_keys sn st B cpt mfc [] (chunk_collect sn st B cpt mfc P)
      (chunk_collect_shape sn st B cpt mfc P)]
  rw [show payload_keys ([] : Payload) = [] from rfl, List.nil_append]
  rw [chunk_collect_keys]
  exact collapse_flatten_replicate P _
    (fun kv _ => List.length_pos.mpr (expand_item_ne_nil sn st B cpt mfc kv.1 kv.2)) hd

theorem c3_coverage_witness :
    (payload_keys [("a", JValue.jnum "1"), ("b", JValue.jstr "x")]).Nodup ∧
      collapse_runs
          (((chunk_mapping_payloads "s" "t"
              [("a", JValue.jnum "1"), ("b", JValue.jstr "x")] 10000 4 8000).map
            payload_keys).flatten) =
        payload_keys [("a", JValue.jnum "1"), ("b", JValue.jstr "x")] :=
  ⟨by decide,
    c3_coverage "s" "t" [("a", JValue.jnum "1"), ("b", JValue.jstr "x")] 10000 4 8000
      (by decide)⟩


/-! ## String-trimming lemmas (shared by C8) -/

theorem dropWhile_head_false {p : Char → Bool} :
    ∀ {l : List Char} {c : Char} {t : List Char},
      l.dropWhile p = c :: t → p c = false := by
  intro l
  induction l with
  | nil => intro c t h; simp [List.dropWhile] at h
  | cons a l ih =>
    intro c t h
    by_cases hp : p a = true
    · rw [List.dropWhile_cons_of_pos hp] at h
      exact ih h
    · rw [List.dropWhile_cons_of_neg hp] at h
      obtain ⟨rfl, -⟩ := List.cons.inj h
      exact Bool.eq_false_iff.mpr hp

theorem dropWhile_append_last {p : Char → Bool} {c : Char} (hc : p c = false) :
    ∀ xs : List Char, ∃ ys : List Char, (xs ++ [c]).dropWhile p = ys ++ [c] := by
  intro xs
  induction xs with
  | nil =>
    refine ⟨[], ?_⟩
    simp [List.dropWhile, hc]
  | cons x xs ih =>
    by_cases hp : p x = true
    · obtain ⟨ys, hy⟩ := ih
      refine ⟨ys, ?_⟩
      rw [List.cons_append, List.dropWhile_cons_of_pos hp, hy]
    · exact ⟨x :: xs, by rw [List.cons_append, List.dropWhile_cons_of_neg hp]⟩

theorem dropWhile_idem {p : Char → Bool} (l : List Char) :
    (l.dropWhile p).dropWhile p = l.dropWhile p := by
  rcases h : l.dropWhile p with _ | ⟨c, t⟩
  · simp
  · rw [List.dropWhile_cons_of_neg]
    rw [dropWhile_head_false h]
    simp

theorem strip_right_idem {p : Char → Bool} (l : List Char) :
    strip_right p (strip_right p l) = strip_right p l := by
  simp only [strip_right, List.reverse_reverse]
  rw [dropWhile_idem]

/-- `strip_right` keeps a head that fails `p` (result stays non-empty
with the same head). -/
theorem strip_right_cons {p : Char → Bool} {c : Char} (hc : p c = false)
    (t : List Char) : ∃ t', strip_right p (c :: t) = c :: t' := by
  obtain ⟨ys, hy⟩ := dropWhile_append_last hc t.reverse
  refine ⟨ys.reverse, ?_⟩
  simp only [strip_right, List.reverse_cons, hy, List.reverse_append, List.reverse_cons,
    List.reverse_nil, List.nil_append]
  rfl

/-- A trimmed list is either empty or starts with a character failing
`p` — and in that shape it is a fixed point of another trim. -/
theorem strip_both_shape {p : Char → Bool} (l : List Char) :
    strip_both p l = [] ∨
      ∃ c t, strip_both p l = c :: t ∧ p c = false := by
  rcases h : l.dropWhile p with _ | ⟨c, t⟩
  · left
    simp [strip_both, strip_left, h, strip_right]
  · right
    have hc : p c = false := dropWhile_head_false h
    obtain ⟨t', ht⟩ := strip_right_cons hc t
    exact ⟨c, t', by simp only [strip_both, strip_left, h, ht], hc⟩

theorem strip_both_idem {p : Char → Bool} (l : List Char) :
    strip_both p (strip_both p l) = strip_both p l := by
  rcases strip_both_shape (p := p) l with h | ⟨c, t, h, hc⟩
  · rw [h]
    rfl
  · have hsr : strip_right p (strip_both p l) = strip_both p l := by
      simp only [strip_both]
      exact strip_right_idem _
    rw [strip_both, strip_left]
    rw [h, List.dropWhile_cons_of_neg (by simp [hc]), ← h, hsr]

/-- A list that starts and ends with characters failing `p` is a fixed
point of the trim. -/
theorem strip_both_fixed {p : Char → Bool} {c d : Char} (m : List Char)
    (hc : p c = false) (hd : p d = false) :
    strip_both p (c :: m ++ [d]) = c :: m ++ [d] := by
  have h1 : (c :: m ++ [d]).dropWhile p = c :: m ++ [d] := by
    rw [List.cons_append, List.dropWhile_cons_of_neg (by simp [hc])]
  have h2 : strip_right p (c :: m ++ [d]) = c :: m ++ [d] := by
    simp only [strip_right, List.cons_append, List.reverse_append, List.reverse_cons,
      List.reverse_nil, List.nil_append, List.cons_append]
    rw [List.dropWhile_cons_of_neg (by simp [hd])]
    simp
  rw [strip_both, strip_left, h1, h2]

theorem py_strip_idem (s : String) : py_strip (py_strip s) = py_strip s :=
  congrArg String.mk (strip_both_idem s.data)

theorem py_strip_data (s : String) : (py_strip s).data = strip_both is_py_space s.data :=
  rfl

/-- The data of a non-empty stripped string starts with non-whitespace. -/
theorem py_strip_head (s : String) (h : py_strip s ≠ "") :
    ∃ c t, (py_strip s).data = c :: t ∧ is_py_space c = false := by
  rcases strip_both_shape (p := is_py_space) s.data with h0 | ⟨c, t, h0, hc⟩
  · exact absurd (congrArg String.mk h0) h
  · exact ⟨c, t, h0, hc⟩

theorem linebreak_is_space {c : Char} (h : is_py_linebreak c = true) :
    is_py_space c = true := by
  simp only [is_py_linebreak, Bool.or_eq_true, decide_eq_true_eq] at h
  simp only [is_py_space, Bool.or_eq_true, decide_eq_true_eq]
  tauto

theorem not_linebreak_of_not_space {c : Char} (h : is_py_space c = false) :
    is_py_linebreak c = false := by
  cases hb : is_py_linebreak c
  · rfl
  · rw [linebreak_is_space hb] at h
    exact absurd h (by simp)

theorem append_dot_ne (a : String) : a ++ "." ≠ "" := by
  intro h
  have h2 := congrArg String.data h
  rw [String.data_append] at h2
  simp at h2

theorem mk_cons_ne (c : Char) (t : List Char) : (⟨c :: t⟩ : String) ≠ "" := by
  intro h
  simpa using congrArg String.data h

/-- A string of the shape `a ++ sn ++ "."` whose first character is not
whitespace is a fixed point of `py_strip`. -/
theorem py_strip_wrap_fixed (a sn : String) (c : Char) (rest : List Char)
    (ha : a.data = c :: rest) (hc : is_py_space c = false) :
    py_strip (a ++ sn ++ ".") = a ++ sn ++ "." := by
  have hd : (a ++ sn ++ ".").data = c :: (rest ++ sn.data) ++ ['.'] := by
    rw [String.data_append, String.data_append, ha]
    show c :: rest ++ sn.data ++ ".".data = _
    simp [List.append_assoc]
  have hfix := strip_both_fixed (p := is_py_space) (c := c) (d := '.')
    (rest ++ sn.data) hc (by decide)
  have : strip_both is_py_space (a ++ sn ++ ".").data = (a ++ sn ++ ".").data := by
    rw [hd]
    exact hfix
  exact congrArg String.mk this

theorem splitlines_raw_ne_nil : ∀ l : List Char, splitlines_raw l ≠ [] := by
  intro l
  induction l with
  | nil => simp [splitlines_raw]
  | cons c rest ih =>
    rw [splitlines_raw.eq_def]
    dsimp only
    by_cases hb : is_py_linebreak c = true
    · rw [if_pos hb]
      split
      · split <;> simp
      · simp
    · rw [if_neg hb]
      rcases h : splitlines_raw rest with _ | ⟨line, more⟩
      · simp
      · simp

/-- `splitlines_raw` on a list whose head is not a line break starts
with a line carrying that head. -/
theorem splitlines_raw_cons {c : Char} (t : List Char)
    (hcb : is_py_linebreak c = false) :
    ∃ line more, splitlines_raw (c :: t) = (c :: line) :: more := by
  rw [splitlines_raw.eq_def]
  dsimp only
  rw [if_neg (by simp [hcb])]
  rcases h : splitlines_raw t with _ | ⟨line, more⟩
  · exact absurd h (splitlines_raw_ne_nil _)
  · exact ⟨line, more, rfl⟩

/-- The first line reported by `py_splitlines` on a string whose first
character is not a line break starts with that character. -/
theorem py_splitlines_head (s : String) (c : Char) (t : List Char)
    (hdata : s.data = c :: t) (hcb : is_py_linebreak c = false) :
    ∃ line, (py_splitlines s).headD "" = (⟨c :: line⟩ : String) := by
  obtain ⟨line, more, hsl⟩ := splitlines_raw_cons (c := c) t hcb
  refine ⟨line, ?_⟩
  simp only [py_splitlines, hdata, hsl]
  rcases more with _ | ⟨m, ms⟩
  · rw [if_neg (by simp)]
    rfl
  · by_cases hlast : (((c :: line) :: m :: ms : List (List Char)).getLast? = some [])
    · rw [if_pos hlast]
      simp [List.dropLast]
    · rw [if_neg hlast]
      rfl

/-- `_summary_from_text` never returns the empty string when its input
is a stripped string (every caller in `writer.py` passes one). -/
theorem summary_from_text_ne (text name : String) (hfix : py_strip text = text) :
    summary_from_text text name ≠ "" := by
  unfold summary_from_text
  by_cases h0 : text = ""
  · rw [if_pos h0]
    exact append_dot_ne _
  · rw [if_neg h0]
    by_cases h1 : py_contains text ". " = true
    · rw [if_pos h1]
      exact append_dot_ne _
    · rw [if_neg h1]
      by_cases h2 : py_contains text ".\n" = true
      · rw [if_pos h2]
        exact append_dot_ne _
      · rw [if_neg h2]
        obtain ⟨c, t, hdata, hcsp⟩ := py_strip_head text (hfix.symm ▸ h0)
        rw [hfix] at hdata
        obtain ⟨line, hhead⟩ :=
          py_splitlines_head (py_strip text) c t (by rw [hfix]; exact hdata)
            (not_linebreak_of_not_space hcsp)
        rw [hhead, py_or, if_neg (mk_cons_ne c line)]
        obtain ⟨t', ht'⟩ := strip_right_cons hcsp line
        have hshape : strip_both is_py_space (c :: line) = c :: t' := by
          rw [strip_both, strip_left, List.dropWhile_cons_of_neg (by simp [hcsp]), ht']
        intro hcon
        have hdat := congrArg String.data hcon
        rw [py_strip_data] at hdat
        rw [hshape] at hdat
        exact absurd hdat (by simp)

/-! ## C8: every invoker result has non-empty description and summary -/

/-- C8 (confirmed): every StructuredRecord produced by the Response
Invoker — successful parse, parse failure, and generation failure alike,
for *every* possible reply string — has a non-empty `description` and a
non-empty `summary` (fallback text is supplied when either is absent or
blank). -/
theorem c8_nonempty_fields (result : Except Unit String) (section_name : String) :
    (invoke_structured_response result section_name).description ≠ "" ∧
      (invoke_structured_response result section_name).summary ≠ "" := by
  have hlitT : py_strip ("This section covers " ++ section_name ++ ".") =
      "This section covers " ++ section_name ++ "." :=
    py_strip_wrap_fixed "This section covers " section_name 'T'
      "his section covers ".data rfl (by decide)
  cases result with
  | error e =>
    exact ⟨append_dot_ne _, append_dot_ne _⟩
  | ok response =>
    simp only [invoke_structured_response]
    by_cases hp : (parse_json_response response).isEmpty = true
    · rw [if_pos hp]
      by_cases hs : py_strip response = ""
      · simp only [py_or, if_pos hs]
        exact ⟨append_dot_ne _, summary_from_text_ne _ _ hlitT⟩
      · simp only [py_or, if_neg hs]
        exact ⟨hs, summary_from_text_ne _ _ (py_strip_idem response)⟩
    · rw [if_neg hp]
      by_cases hd : py_strip
          (py_str_opt (payload_get (parse_json_response response) "description")) = ""
      · rw [if_pos hd]
        by_cases hsum : py_strip
            (py_str_opt (payload_get (parse_json_response response) "summary")) = ""
        · rw [if_pos hsum]
          exact ⟨append_dot_ne _, summary_from_text_ne _ _ hlitT⟩
        · rw [if_neg hsum]
          exact ⟨append_dot_ne _, hsum⟩
      · rw [if_neg hd]
        by_cases hsum : py_strip
            (py_str_opt (payload_get (parse_json_response response) "summary")) = ""
        · rw [if_pos hsum]
          exact ⟨hd, summary_from_text_ne _ _ (py_strip_idem _)⟩
        · rw [if_neg hsum]
          exact ⟨hd, hsum⟩

/-! ## C4 lemmas -/

theorem skip_ws_cons_neg (c : Char) (l : List Char) (h : is_json_ws c = false) :
    skip_ws (c :: l) = c :: l := by
  simp [skip_ws, List.dropWhile_cons, h]

theorem skip_ws_cons_pos (c : Char) (l : List Char) (h : is_json_ws c = true) :
    skip_ws (c :: l) = skip_ws l := by
  simp [skip_ws, List.dropWhile_cons, h]

set_option smartUnfolding false in
theorem parse_string_body_cons (c : Char) (l : List Char) :
    parse_string_body (c :: l) =
      (if c = '"' then some ([], l)
       else if c = '\\' then parse_escape l
       else if c.toNat < 0x20 then none
       else (parse_string_body l).map (fun p => (c :: p.1, p.2))) := rfl

set_option smartUnfolding false in
theorem parse_escape_n (r : List Char) :
    parse_escape ('n' :: r) = (parse_string_body r).map (fun p => ('\n' :: p.1, p.2)) := rfl

set_option smartUnfolding false in
theorem parse_escape_t (r : List Char) :
    parse_escape ('t' :: r) = (parse_string_body r).map (fun p => ('\t' :: p.1, p.2)) := rfl

/-- A literal body of printable non-special characters parses as
itself. -/
theorem parse_string_body_clean (cs rest : List Char)
    (h : ∀ c ∈ cs, 0x20 ≤ c.toNat ∧ c ≠ '"' ∧ c ≠ '\\') :
    parse_string_body (cs ++ '"' :: rest) = some (cs, rest) := by
  induction cs with
  | nil => rw [List.nil_append, parse_string_body_cons, if_pos rfl]
  | cons c t ih =>
    obtain ⟨h1, h2, h3⟩ := h c (List.mem_cons_self _ _)
    rw [List.cons_append, parse_string_body_cons, if_neg h2, if_neg h3, if_neg (by omega)]
    rw [ih (fun q hq => h q (List.mem_cons_of_mem _ hq))]
    rfl

/-- A literal body containing a raw control character fails the strict
scan. -/
theorem parse_string_body_control (cs rest : List Char)
    (h : ∀ c ∈ cs, (0x20 ≤ c.toNat ∧ c ≠ '"' ∧ c ≠ '\\') ∨ c = '\n' ∨ c = '\r' ∨ c = '\t')
    (hc : ∃ c ∈ cs, c.toNat < 0x20) :
    parse_string_body (cs ++ rest) = none := by
  induction cs with
  | nil => simp at hc
  | cons c t ih =>
    rw [List.cons_append, parse_string_body_cons]
    rcases h c (List.mem_cons_self _ _) with ⟨h1, h2, h3⟩ | rfl | rfl | rfl
    · rw [if_neg h2, if_neg h3, if_neg (by omega)]
      obtain ⟨c0, hc0m, hc0⟩ := hc
      rcases List.mem_cons.mp hc0m with rfl | hc0t
      · omega
      · rw [ih (fun q hq => h q (List.mem_cons_of_mem _ hq)) ⟨c0, hc0t, hc0⟩]
        rfl
    · rw [if_neg (by decide), if_neg (by decide), if_pos (by decide)]
    · rw [if_neg (by decide), if_neg (by decide), if_pos (by decide)]
    · rw [if_neg (by decide), if_neg (by decide), if_pos (by decide)]

theorem char_ne_of_ge (c : Char) (d : Char) (h1 : 0x20 ≤ c.toNat) (hd : d.toNat < 0x20) :
    c ≠ d := by
  intro h
  subst h
  omega

/-- The escaped body round-trips through the strict scanner: escaped
newlines and tabs decode back, and dropped carriage returns stay
dropped. -/
theorem parse_string_body_escaped (cs rest : List Char)
    (h : ∀ c ∈ cs, (0x20 ≤ c.toNat ∧ c ≠ '"' ∧ c ≠ '\\') ∨ c = '\n' ∨ c = '\r' ∨ c = '\t') :
    parse_string_body ((cs.map spec_escape_char).flatten ++ '"' :: rest) =
      some (cs.filter (fun c => c != '\r'), rest) := by
  induction cs with
  | nil =>
    rw [List.map_nil, List.flatten_nil, List.nil_append, parse_string_body_cons, if_pos rfl]
    rfl
  | cons c t ih =>
    have ih' := ih (fun q hq => h q (List.mem_cons_of_mem _ hq))
    rw [List.map_cons, List.flatten_cons, List.append_assoc]
    rcases h c (List.mem_cons_self _ _) with ⟨h1, h2, h3⟩ | rfl | rfl | rfl
    · have he : spec_escape_char c = [c] := by
        unfold spec_escape_char
        rw [if_neg (char_ne_of_ge c '\n' h1 (by decide)),
          if_neg (char_ne_of_ge c '\r' h1 (by decide)),
          if_neg (char_ne_of_ge c '\t' h1 (by decide))]
      rw [he, List.singleton_append, parse_string_body_cons, if_neg h2, if_neg h3,
        if_neg (by omega), ih']
      rw [List.filter_cons_of_pos (by
        simp only [bne_iff_ne]
        exact char_ne_of_ge c '\r' h1 (by decide))]
      rfl
    · rw [show spec_escape_char '\n' = ['\\', 'n'] from rfl, List.cons_append,
        List.singleton_append, parse_string_body_cons, if_neg (by decide), if_pos rfl,
        parse_escape_n, ih']
      rw [List.filter_cons_of_pos (by decide)]
      rfl
    · rw [show spec_escape_char '\r' = [] from rfl, List.nil_append, ih']
      rw [List.filter_cons_of_neg (by decide)]
    · rw [show spec_escape_char '\t' = ['\\', 't'] from rfl, List.cons_append,
        List.singleton_append, parse_string_body_cons, if_neg (by decide), if_pos rfl,
        parse_escape_t, ih']
      rw [List.filter_cons_of_pos (by decide)]
      rfl

theorem repair_go_out_cons (c : Char) (l : List Char) (h : ¬ c = '"') :
    repair_go false false (c :: l) = c :: repair_go false false l := by
  simp [repair_go, h]

theorem repair_go_out_quote (l : List Char) :
    repair_go false false ('"' :: l) = '"' :: repair_go true false l := by
  simp [repair_go]

theorem repair_go_in_cons (c : Char) (l : List Char) :
    repair_go true false (c :: l) =
      (if c = '\\' then c :: repair_go true true l
       else if c = '"' then c :: repair_go false false l
       else if c = '\n' then '\\' :: 'n' :: repair_go true false l
       else if c = '\r' then repair_go true false l
       else if c = '\t' then '\\' :: 't' :: repair_go true false l
       else c :: repair_go true false l) := by
  simp [repair_go]

/-- Inside a string literal the repair pass performs exactly the spec's
rewrite on every character up to the closing quote. -/
theorem repair_go_inside (cs rest : List Char)
    (h : ∀ c ∈ cs, (0x20 ≤ c.toNat ∧ c ≠ '"' ∧ c ≠ '\\') ∨ c = '\n' ∨ c = '\r' ∨ c = '\t') :
    repair_go true false (cs ++ '"' :: rest) =
      (cs.map spec_escape_char).flatten ++ '"' :: repair_go false false rest := by
  induction cs with
  | nil => simp [repair_go]
  | cons c t ih =>
    have ih' := ih (fun q hq => h q (List.mem_cons_of_mem _ hq))
    rw [List.cons_append, List.map_cons, List.flatten_cons, List.append_assoc,
      repair_go_in_cons]
    rcases h c (List.mem_cons_self _ _) with ⟨h1, h2, h3⟩ | rfl | rfl | rfl
    · have he : spec_escape_char c = [c] := by
        unfold spec_escape_char
        rw [if_neg (char_ne_of_ge c '\n' h1 (by decide)),
          if_neg (char_ne_of_ge c '\r' h1 (by decide)),
          if_neg (char_ne_of_ge c '\t' h1 (by decide))]
      rw [if_neg h3, if_neg h2, if_neg (char_ne_of_ge c '\n' h1 (by decide)),
        if_neg (char_ne_of_ge c '\r' h1 (by decide)),
        if_neg (char_ne_of_ge c '\t' h1 (by decide)), ih', he, List.singleton_append]
    · rw [if_neg (by decide), if_neg (by decide), if_pos rfl, ih']
      rfl
    · rw [if_neg (by decide), if_neg (by decide), if_neg (by decide), if_pos rfl, ih',
        show spec_escape_char '\r' = [] from rfl, List.nil_append]
    · rw [if_neg (by decide), if_neg (by decide), if_neg (by decide), if_neg (by decide),
        if_pos rfl, ih']
      rfl

theorem spec_escape_clean (cs : List Char) (h : ∀ c ∈ cs, 0x20 ≤ c.toNat) :
    (cs.map spec_escape_char).flatten = cs := by
  induction cs with
  | nil => rfl
  | cons c t ih =>
    have h1 := h c (List.mem_cons_self _ _)
    have he : spec_escape_char c = [c] := by
      unfold spec_escape_char
      rw [if_neg (char_ne_of_ge c '\n' h1 (by decide)),
        if_neg (char_ne_of_ge c '\r' h1 (by decide)),
        if_neg (char_ne_of_ge c '\t' h1 (by decide))]
    rw [List.map_cons, List.flatten_cons, he, List.singleton_append,
      ih (fun q hq => h q (List.mem_cons_of_mem _ hq))]

set_option smartUnfolding false in
theorem parse_value_succ_cons (f : ℕ) (c : Char) (rest : List Char) :
    parse_value (f + 1) (c :: rest) =
      (if c = '\x7b' then
        (match skip_ws rest with
         | '\x7d' :: r => some (.jobj [], r)
         | l' => parse_members f l' [])
      else if c = '[' then
        (match skip_ws rest with
         | ']' :: r => some (.jarr [], r)
         | l' => parse_elements f l' [])
      else if c = '"' then (parse_string_body rest).map (fun p => (.jstr ⟨p.1⟩, p.2))
      else if c = 't' then
        (match rest with
         | 'r' :: 'u' :: 'e' :: r => some (.jbool true, r)
         | _ => none)
      else if c = 'f' then
        (match rest with
         | 'a' :: 'l' :: 's' :: 'e' :: r => some (.jbool false, r)
         | _ => none)
      else if c = 'n' then
        (match rest with
         | 'u' :: 'l' :: 'l' :: r => some (.jnull, r)
         | _ => none)
      else if c = '-' || c.isDigit then
        (lex_number (c :: rest)).map (fun p => (.jnum ⟨p.1⟩, p.2))
      else none) := rfl

set_option smartUnfolding false in
theorem parse_members_succ_cons (f : ℕ) (c : Char) (rest : List Char) (acc : Payload) :
    parse_members (f + 1) (c :: rest) acc =
      (if c = '"' then
        match parse_string_body rest with
        | none => none
        | some (key, r1) =>
          match skip_ws r1 with
          | ':' :: r2 =>
            match parse_value f (skip_ws r2) with
            | none => none
            | some (v, r3) =>
              match skip_ws r3 with
              | ',' :: r4 => parse_members f (skip_ws r4) (payload_insert acc ⟨key⟩ v)
              | '\x7d' :: r4 => some (.jobj (payload_insert acc ⟨key⟩ v), r4)
              | _ => none
          | _ => none
      else none) := rfl

theorem parse_value_reply (f : ℕ) (k : String) (w pv : List Char)
    (hk : ∀ c ∈ k.data, 0x20 ≤ c.toNat ∧ c ≠ '"' ∧ c ≠ '\\')
    (hw : parse_string_body w = some (pv, ['\x7d'])) :
    parse_value (f + 3) ('\x7b' :: '"' :: (k.data ++ '"' :: ':' :: ' ' :: '"' :: w)) =
      some (.jobj [(⟨k.data⟩, .jstr ⟨pv⟩)], []) := by
  rw [show f + 3 = (f + 2) + 1 from rfl, parse_value_succ_cons, if_pos rfl,
    skip_ws_cons_neg '"' _ (by decide)]
  split
  · rename_i r heq
    simp at heq
  · rw [show f + 2 = (f + 1) + 1 from rfl, parse_members_succ_cons, if_pos rfl,
      parse_string_body_clean k.data _ hk]
    split
    · rename_i heq
      exact absurd heq (by simp)
    rename_i key r1 heq
    injection heq with hpair
    injection hpair with hkey hr1
    subst hkey
    subst hr1
    rw [skip_ws_cons_neg ':' _ (by decide)]
    split
    · rename_i r2 h1
      injection h1 with h1a h1b
      subst h1b
      rw [skip_ws_cons_pos ' ' _ (by decide), skip_ws_cons_neg '"' _ (by decide),
        parse_value_succ_cons, if_neg (by decide), if_neg (by decide), if_pos rfl, hw]
      simp only [Option.map_some']
      rw [show skip_ws ['\x7d'] = ['\x7d'] from by decide]
      rfl
    · rename_i hne
      exact absurd rfl (hne (' ' :: '"' :: w))

/-- When the value body fails the strict scan, the whole reply fails the
strict parse. -/
theorem parse_value_reply_fails (f : ℕ) (k : String) (w : List Char)
    (hk : ∀ c ∈ k.data, 0x20 ≤ c.toNat ∧ c ≠ '"' ∧ c ≠ '\\')
    (hw : parse_string_body w = none) :
    parse_value (f + 3) ('\x7b' :: '"' :: (k.data ++ '"' :: ':' :: ' ' :: '"' :: w)) =
      none := by
  rw [show f + 3 = (f + 2) + 1 from rfl, parse_value_succ_cons, if_pos rfl,
    skip_ws_cons_neg '"' _ (by decide)]
  split
  · rename_i r heq
    simp at heq
  · rw [show f + 2 = (f + 1) + 1 from rfl, parse_members_succ_cons, if_pos rfl,
      parse_string_body_clean k.data _ hk]
    split
    · rename_i heq
      exact absurd heq (by simp)
    rename_i key r1 heq
    injection heq with hpair
    injection hpair with hkey hr1
    subst hkey
    subst hr1
    rw [skip_ws_cons_neg ':' _ (by decide)]
    split
    · rename_i r2 h1
      injection h1 with h1a h1b
      subst h1b
      rw [skip_ws_cons_pos ' ' _ (by decide), skip_ws_cons_neg '"' _ (by decide),
        parse_value_succ_cons, if_neg (by decide), if_neg (by decide), if_pos rfl, hw]
      rfl
    · rename_i hne
      exact absurd rfl (hne (' ' :: '"' :: w))

/-- The reply's character list, bracketed by the braces. -/
theorem c4_data_shape (k v : String) :
    (c4_reply k v).data =
      '\x7b' :: ('"' :: (k.data ++ '"' :: ':' :: ' ' :: '"' :: (v.data ++ ['"']))) ++
        ['\x7d'] := by
  show '\x7b' :: '"' :: (k.data ++ '"' :: ':' :: ' ' :: '"' :: (v.data ++ ['"', '\x7d'])) = _
  simp [List.append_assoc]

/-- The strict first parse of the reply fails on the raw control
character. -/
theorem c4_loads_fails (k v : String)
    (hk : ∀ c ∈ k.data, 0x20 ≤ c.toNat ∧ c ≠ '"' ∧ c ≠ '\\')
    (hv : ∀ c ∈ v.data,
      (0x20 ≤ c.toNat ∧ c ≠ '"' ∧ c ≠ '\\') ∨ c = '\n' ∨ c = '\r' ∨ c = '\t')
    (hnl : '\n' ∈ v.data) :
    json_loads (c4_reply k v) = none := by
  unfold json_loads
  rw [show (c4_reply k v).data =
      '\x7b' :: '"' :: (k.data ++ '"' :: ':' :: ' ' :: '"' :: (v.data ++ ['"', '\x7d'])) from
      rfl]
  rw [skip_ws_cons_neg '\x7b' _ (by decide)]
  rw [show 2 * (c4_reply k v).length + 4 = (2 * (c4_reply k v).length + 1) + 3 from by omega]
  rw [show v.data ++ ['"', '\x7d'] = v.data ++ '"' :: ['\x7d'] from rfl]
  rw [parse_value_reply_fails _ k _ hk
    (parse_string_body_control v.data ('"' :: ['\x7d']) hv ⟨'\n', hnl, by decide⟩)]

/-- The repair pass rewrites exactly the value's characters, leaving the
structure and the key untouched. -/
theorem c4_repair_eq (k v : String)
    (hk : ∀ c ∈ k.data, 0x20 ≤ c.toNat ∧ c ≠ '"' ∧ c ≠ '\\')
    (hv : ∀ c ∈ v.data,
      (0x20 ≤ c.toNat ∧ c ≠ '"' ∧ c ≠ '\\') ∨ c = '\n' ∨ c = '\r' ∨ c = '\t') :
    repair_json_string (c4_reply k v) =
      ⟨'\x7b' :: '"' :: (k.data ++ '"' :: ':' :: ' ' :: '"' ::
        ((v.data.map spec_escape_char).flatten ++ ['"', '\x7d']))⟩ := by
  unfold repair_json_string
  apply congrArg String.mk
  rw [show (c4_reply k v).data =
      '\x7b' :: '"' :: (k.data ++ '"' :: ':' :: ' ' :: '"' :: (v.data ++ ['"', '\x7d'])) from
      rfl]
  rw [repair_go_out_cons '\x7b' _ (by decide), repair_go_out_quote]
  rw [show k.data ++ '"' :: ':' :: ' ' :: '"' :: (v.data ++ ['"', '\x7d']) =
      k.data ++ '"' :: (':' :: ' ' :: '"' :: (v.data ++ ['"', '\x7d'])) from rfl]
  rw [repair_go_inside k.data _ (fun c hc => Or.inl (hk c hc)),
    spec_escape_clean k.data (fun c hc => (hk c hc).1)]
  rw [repair_go_out_cons ':' _ (by decide), repair_go_out_cons ' ' _ (by decide),
    repair_go_out_quote]
  rw [show v.data ++ ['"', '\x7d'] = v.data ++ '"' :: ['\x7d'] from rfl]
  rw [repair_go_inside v.data _ hv]
  rw [repair_go_out_cons '\x7d' _ (by decide),
    show repair_go false false [] = [] from rfl]

/-- The repaired reply strict-parses to the object with the spec's value
(carriage returns dropped, newlines and tabs preserved). -/
theorem c4_loads_repaired (k v : String)
    (hk : ∀ c ∈ k.data, 0x20 ≤ c.toNat ∧ c ≠ '"' ∧ c ≠ '\\')
    (hv : ∀ c ∈ v.data,
      (0x20 ≤ c.toNat ∧ c ≠ '"' ∧ c ≠ '\\') ∨ c = '\n' ∨ c = '\r' ∨ c = '\t') :
    json_loads (⟨'\x7b' :: '"' :: (k.data ++ '"' :: ':' :: ' ' :: '"' ::
        ((v.data.map spec_escape_char).flatten ++ ['"', '\x7d']))⟩ : String) =
      some (.jobj [(k, .jstr ⟨v.data.filter (fun c => c != '\r')⟩)]) := by
  unfold json_loads
  rw [show (⟨'\x7b' :: '"' :: (k.data ++ '"' :: ':' :: ' ' :: '"' ::
        ((v.data.map spec_escape_char).flatten ++ ['"', '\x7d']))⟩ : String).data =
      '\x7b' :: '"' :: (k.data ++ '"' :: ':' :: ' ' :: '"' ::
        ((v.data.map spec_escape_char).flatten ++ ['"', '\x7d'])) from rfl]
  rw [skip_ws_cons_neg '\x7b' _ (by decide)]
  rw [show 2 * (⟨'\x7b' :: '"' :: (k.data ++ '"' :: ':' :: ' ' :: '"' ::
        ((v.data.map spec_escape_char).flatten ++ ['"', '\x7d']))⟩ : String).length + 4 =
      (2 * (⟨'\x7b' :: '"' :: (k.data ++ '"' :: ':' :: ' ' :: '"' ::
        ((v.data.map spec_escape_char).flatten ++ ['"', '\x7d']))⟩ : String).length + 1) + 3
      from by omega]
  rw [show (v.data.map spec_escape_char).flatten ++ ['"', '\x7d'] =
      (v.data.map spec_escape_char).flatten ++ '"' :: ['\x7d'] from rfl]
  rw [parse_value_reply _ k _ _ hk (parse_string_body_escaped v.data ['\x7d'] hv)]
  rfl

theorem c4_strip (k v : String) : py_strip (c4_reply k v) = c4_reply k v := by
  unfold py_strip
  rw [c4_data_shape, strip_both_fixed _ (by decide) (by decide), ← c4_data_shape]

set_option smartUnfolding false in
theorem c4_no_fence (k v : String) : py_startswith (c4_reply k v) "```" = false := rfl

set_option smartUnfolding false in
theorem c4_find (k v : String) : find_char '\x7b' (c4_reply k v).data = some 0 := rfl

theorem c4_len (k v : String) :
    (c4_reply k v).data.length = k.data.length + v.data.length + 8 := by
  show ('\x7b' :: '"' :: (k.data ++ '"' :: ':' :: ' ' :: '"' :: (v.data ++ ['"', '\x7d']))).length = _
  simp
  omega

theorem c4_rfind (k v : String) :
    rfind_char '\x7d' (c4_reply k v).data = some ((c4_reply k v).data.length - 1) := by
  unfold rfind_char
  rw [show (c4_reply k v).data.reverse =
      '\x7d' :: ('\x7b' :: '"' :: (k.data ++ '"' :: ':' :: ' ' :: '"' ::
        (v.data ++ ['"']))).reverse from by
    rw [c4_data_shape]
    simp]
  rw [show find_char '\x7d' ('\x7d' :: ('\x7b' :: '"' :: (k.data ++ '"' :: ':' :: ' ' :: '"' ::
      (v.data ++ ['"']))).reverse) = some 0 from by simp [find_char]]
  simp

/-- `_parse_json_response` on the reply: strip and slice are the
identity, the strict parse fails, and the repaired reply parses. -/
theorem c4_parse_response (k v : String)
    (hk : ∀ c ∈ k.data, 0x20 ≤ c.toNat ∧ c ≠ '"' ∧ c ≠ '\\')
    (hv : ∀ c ∈ v.data,
      (0x20 ≤ c.toNat ∧ c ≠ '"' ∧ c ≠ '\\') ∨ c = '\n' ∨ c = '\r' ∨ c = '\t')
    (hnl : '\n' ∈ v.data) :
    parse_json_response (c4_reply k v) =
      [(k, .jstr ⟨v.data.filter (fun c => c != '\r')⟩)] := by
  have hlen := c4_len k v
  unfold parse_json_response
  rw [if_neg (show ¬ (c4_reply k v = "") from mk_cons_ne _ _)]
  simp only [c4_strip, c4_no_fence, Bool.false_eq_true, if_false, ite_false, c4_find,
    c4_rfind]
  rw [if_pos (show 0 < (c4_reply k v).data.length - 1 from by omega)]
  rw [show (c4_reply k v).data.length - 1 + 1 = (c4_reply k v).data.length from by omega]
  rw [List.take_length, List.drop_zero]
  rw [show (⟨(c4_reply k v).data⟩ : String) = c4_reply k v from rfl]
  rw [c4_loads_fails k v hk hv hnl]
  dsimp only
  rw [c4_repair_eq k v hk hv, c4_loads_repaired k v hk hv]

/-- C4: repair round-trip.  For every reply `\x7b"k": "v"\x7d` whose key is
printable and whose string value mixes printable characters with raw
newlines, carriage returns and tabs (with at least one raw newline), the
strict parse rejects the reply; the repair pass rewrites exactly the
characters inside the string literal the way the spec prescribes (raw
newline to `\n`, raw carriage return dropped, raw tab to `\t`) and leaves
every character outside string literals unchanged; and the repaired reply
parses as a JSON object whose field value is the original text with
carriage returns dropped and every newline kept (as a decoded newline,
not stripped). -/
theorem c4_repair_round_trip (k v : String)
    (hk : ∀ c ∈ k.data, 0x20 ≤ c.toNat ∧ c ≠ '"' ∧ c ≠ '\\')
    (hv : ∀ c ∈ v.data,
      (0x20 ≤ c.toNat ∧ c ≠ '"' ∧ c ≠ '\\') ∨ c = '\n' ∨ c = '\r' ∨ c = '\t')
    (hnl : '\n' ∈ v.data) :
    json_loads (c4_reply k v) = none ∧
    repair_json_string (c4_reply k v) =
      ⟨'\x7b' :: '"' :: (k.data ++ '"' :: ':' :: ' ' :: '"' ::
        ((v.data.map spec_escape_char).flatten ++ ['"', '\x7d']))⟩ ∧
    parse_json_response (c4_reply k v) =
      [(k, .jstr ⟨v.data.filter (fun c => c != '\r')⟩)] ∧
    '\n' ∈ v.data.filter (fun c => c != '\r') :=
  ⟨c4_loads_fails k v hk hv hnl, c4_repair_eq k v hk hv,
    c4_parse_response k v hk hv hnl, List.mem_filter.mpr ⟨hnl, by decide⟩⟩

theorem c4_repair_round_trip_witness :
    (∀ c ∈ ("k" : String).data, 0x20 ≤ c.toNat ∧ c ≠ '"' ∧ c ≠ '\\') ∧
    (∀ c ∈ ("a\nb" : String).data,
      (0x20 ≤ c.toNat ∧ c ≠ '"' ∧ c ≠ '\\') ∨ c = '\n' ∨ c = '\r' ∨ c = '\t') ∧
    '\n' ∈ ("a\nb" : String).data ∧
    (json_loads (c4_reply "k" "a\nb") = none ∧
     repair_json_string (c4_reply "k" "a\nb") =
       ⟨'\x7b' :: '"' :: (("k" : String).data ++ '"' :: ':' :: ' ' :: '"' ::
         ((("a\nb" : String).data.map spec_escape_char).flatten ++ ['"', '\x7d']))⟩ ∧
     parse_json_response (c4_reply "k" "a\nb") =
       [("k", .jstr ⟨("a\nb" : String).data.filter (fun c => c != '\r')⟩)] ∧
     '\n' ∈ ("a\nb" : String).data.filter (fun c => c != '\r')) :=
  ⟨by decide, by decide, by decide,
    c4_repair_round_trip "k" "a\nb" (by decide) (by decide) (by decide)⟩


/-! ## C10: idempotence of the repair pass -/

/-- One repair pass leaves its own output fixed: re-scanning the output
from the same state changes nothing.  The string-boundary structure is
preserved (inserted backslashes are consumed as escapes on the second
pass), so the second pass rewrites nothing. -/
theorem repair_go_idem (i e : Bool) (l : List Char) :
    repair_go i e (repair_go i e l) = repair_go i e l := by
  induction i, e, l using repair_go.induct with
  | case1 i e => simp [repair_go]
  | case2 c rest ih => simp [repair_go, ih]
  | case3 escape rest hne ih =>
    simp only [Bool.not_eq_true] at hne
    subst hne
    simp [repair_go, ih]
  | case4 escape rest hne hq ih =>
    simp only [Bool.not_eq_true] at hne
    subst hne
    simp [repair_go, ih]
  | case5 escape rest hne h1 h2 ih =>
    simp only [Bool.not_eq_true] at hne
    subst hne
    simp [repair_go, ih]
  | case6 escape rest hne h1 h2 h3 ih =>
    simp only [Bool.not_eq_true] at hne
    subst hne
    simp [repair_go, ih]
  | case7 escape rest hne h1 h2 h3 h4 ih =>
    simp only [Bool.not_eq_true] at hne
    subst hne
    simp [repair_go, ih]
  | case8 escape c rest hne h1 h2 h3 h4 h5 ih =>
    simp only [Bool.not_eq_true] at hne
    subst hne
    simp [repair_go, h1, h2, h3, h4, h5, ih]
  | case9 in_string escape rest hne ih =>
    simp only [Bool.not_eq_true] at hne
    subst hne
    simp [repair_go, ih]
  | case10 in_string escape c rest hne hq ih =>
    simp only [Bool.not_eq_true] at hne
    subst hne
    simp [repair_go, hq, ih]

/-- C10 (confirmed): the JSON repair pass is idempotent — for every
input string `s`, `repair(repair(s)) = repair(s)`. -/
theorem c10_repair_idempotent (s : String) :
    repair_json_string (repair_json_string s) = repair_json_string s :=
  congrArg String.mk (repair_go_idem false false s.data)

/-- Witness for `c5_estimate_fallback` at `charsPerUnit = 4`,
`text = "abcde"`. -/
theorem c5_estimate_fallback_witness :
    ((∃ n : ℤ, (("abcde".length : ℚ)) / max 4 1 = (n : ℚ)) →
      estimate_tokens 4 "abcde" = Int.toNat ⌈(("abcde".length : ℚ)) / max 4 1⌉ + 1) ∧
      ((¬ ∃ n : ℤ, (("abcde".length : ℚ)) / max 4 1 = (n : ℚ)) →
        estimate_tokens 4 "abcde" = Int.toNat ⌈(("abcde".length : ℚ)) / max 4 1⌉) :=
  c5_estimate_fallback 4 "abcde" (by decide)

/-- Witness for `c6_planned_vs_sent`: on a fitting single-shot run the
one prompt sent is exactly the fit-checked base-spec prompt. -/
theorem c6_planned_vs_sent_witness :
    generate_structured_content_sends (fun _ _ => .error ()) "s" [("a", .jnum "1")] "t"
        1000 160 1000 1000 40 8000 4 10 =
      [structured_prompt "s" (dumps_payload [("a", .jnum "1")]) "t" (response_spec false)] :=
  (c6_planned_vs_sent (fun _ _ => .error ()) "s" "t" [("a", .jnum "1")]
      1000 160 1000 1000 40 8000 4 10).1 (by decide)

end Writer
